import Mathlib

/-!
# Verification of the HLS manifest engine (inputstream.adaptive fork)

Shallow embedding of the HLS parser and tree maintainer:
`src/parser/HLSTree.cpp` (master/child playlist parsing, encryption state,
segment construction, live update repositioning, AES data-arrival hook) and
`Period.cpp` (PSSHSet interning).

Strings are modelled as `List Char`.  Machine integers are modelled as `Nat`;
where unsigned wraparound is reachable and matters (the `uint32_t`
target-duration product, the `uint16_t` PSSHSet index) the reduction modulo
`2^w` is explicit.  64-bit quantities (PTS, durations, byte ranges) are kept
as plain `Nat`; theorems that depend on exact 64-bit behaviour carry bounds
keeping them inside `2^64`, where the C++ and the model agree.

Functions whose C++ source is part of this repository but not available here
(string/URL utilities, `ParseRangeValues`, the PSSHSet comparator, ...) are
modelled from the specification; each such definition carries a doc comment
starting with `Modelled from the spec:`.
-/

namespace HLSTree

/-- Character strings, as the C++ `std::string` byte sequences. -/
abbrev Str := List Char

/-- Modelled from the spec: the whitespace set trimmed by the string
utilities ("whitespace-trimmed value"). -/
def isWs (c : Char) : Bool :=
  c = ' ' || c = '\t' || c = '\n' || c = '\r'

/-- Modelled from the spec: trim trailing whitespace (`StringUtils::TrimRight`). -/
def trimRight (s : Str) : Str :=
  (s.reverse.dropWhile isWs).reverse

/-- Modelled from the spec: trim leading whitespace. -/
def trimLeft (s : Str) : Str :=
  s.dropWhile isWs

/-- Modelled from the spec: trim whitespace on both ends (`StringUtils::Trim`). -/
def trimStr (s : Str) : Str :=
  trimRight (trimLeft s)

/-- Modelled from the spec: case-insensitive string comparison
(`STRING::CompareNoCase`). -/
def compareNoCase (a b : Str) : Bool :=
  a.map Char.toLower = b.map Char.toLower

/-- Numeric value of a digit string (most significant first). -/
def natOfDigits (s : Str) : Nat :=
  s.foldl (fun acc c => 10 * acc + (c.toNat - '0'.toNat)) 0

/-- Modelled from the spec: parse of an unsigned numeric field with a
default for unparsable input (`STRING::ToUint32` / `ToUint64`). -/
def toUintDef (s : Str) (dflt : Nat) : Nat :=
  if s ≠ [] && s.all Char.isDigit then natOfDigits s else dflt

/-- Modelled from the spec: `STRING::ToUint32`, reduced into the `uint32_t` range. -/
def toUint32 (s : Str) : Nat :=
  toUintDef s 0 % 2 ^ 32

/-- Modelled from the spec: `STRING::ToUint64`. -/
def toUint64 (s : Str) : Nat :=
  toUintDef s 0

/-- Split a digit run off the front of a string. -/
def spanDigits : Str → Str × Str
  | [] => ([], [])
  | c :: cs =>
    if c.isDigit then
      let (d, r) := spanDigits cs
      (c :: d, r)
    else
      ([], c :: cs)

/-- Modelled from the spec: `STRING::ToFloat` parses a leading decimal number
(`EXTINF` accepts a floating-point duration followed by an optional `,title`).
The exact value is returned as mantissa / 10 ^ fracDigits; float rounding of
the C++ single/double arithmetic is not modelled, theorems using this stay on
inputs where the truncated products agree. -/
def toFloatParts (s : Str) : Nat × Nat :=
  let (ip, r) := spanDigits s
  match r with
  | '.' :: r2 =>
    let (fp, _) := spanDigits r2
    (natOfDigits (ip ++ fp), fp.length)
  | _ => (natOfDigits ip, 0)

/-! ## Tag lexing (`ParseTagNameValue`, HLSTree.cpp lines 29-41) -/

/-- Split a string at the first occurrence of `ch`; `none` when absent. -/
def splitFirst (ch : Char) : Str → Str × Option Str
  | [] => ([], none)
  | c :: cs =>
    if c = ch then ([], some cs)
    else
      let (a, b) := splitFirst ch cs
      (c :: a, b)

/-- `ParseTagNameValue`: split `#NAME:VALUE` into name (with the `#`) and
value; a line not starting with `#` yields two empty strings. -/
def parseTagNameValue (line : Str) : Str × Str :=
  match line with
  | [] => ([], [])
  | c :: _ =>
    if c ≠ '#' then ([], [])
    else
      let (n, v) := splitFirst ':' line
      (n, v.getD [])

/-! ## Attribute parsing (`ParseTagAttributes`, HLSTree.cpp lines 45-77) -/

/-- Attribute maps; `std::map<std::string, std::string>` with assignment
semantics (`operator[]` overwrites). -/
abbrev AttrMap := List (Str × Str)

/-- `tagAttribs[name] = value`: overwrite an existing binding, else append. -/
def mapInsert (m : AttrMap) (k v : Str) : AttrMap :=
  match m with
  | [] => [(k, v)]
  | (k0, v0) :: rest =>
    if k0 = k then (k0, v) :: rest else (k0, v0) :: mapInsert rest k v

/-- Read access `attribs[k]`; absent keys read as the empty string. -/
def mapFind (m : AttrMap) (k : Str) : Str :=
  match m with
  | [] => []
  | (k0, v0) :: rest => if k0 = k then v0 else mapFind rest k

/-- `STRING::KeyExists`. -/
def mapContains (m : AttrMap) (k : Str) : Bool :=
  match m with
  | [] => false
  | (k0, _) :: rest => k0 = k || mapContains rest k

/-- The value scan of `ParseTagAttributes`: starting right after the `=`,
advance while inside quotes (odd quote count) or until a `,`; `inValue` is a
`uint8_t` quote counter.  Returns (number of characters passed, final quote
counter). -/
def scanAttrValue : Str → Nat → Nat × Nat
  | [], q => (0, q)
  | c :: cs, q =>
    if q % 2 = 0 && c = ',' then (0, q)
    else
      let q' := if c = '"' then (q + 1) % 256 else q
      let (n, qf) := scanAttrValue cs q'
      (n + 1, qf)

/-- One `ParseTagAttributes` loop iteration consumes everything up to and
including the pair separator; fuel bounds the iteration count (each round
consumes at least two characters). -/
def parseTagAttributesAux : Nat → Str → AttrMap → AttrMap
  | 0, _, acc => acc
  | fuel + 1, s, acc =>
    match List.findIdx? (fun c => c = '=') s with
    | none => acc
    | some eq =>
      let nameStart := (s.takeWhile (fun c => c = ' ')).length
      let tail := s.drop (eq + 1)
      let scanned := scanAttrValue tail 0
      let name := trimRight ((s.take eq).drop nameStart)
      let value :=
        if scanned.2 ≠ 0 then trimStr ((tail.drop 1).take (scanned.1 - 2))
        else trimStr (tail.take scanned.1)
      parseTagAttributesAux fuel (tail.drop (scanned.1 + 1)) (mapInsert acc name value)

/-- `ParseTagAttributes`: parse a tag value into a name→value map, unquoting
values, trimming whitespace, not splitting on commas inside double quotes. -/
def parseTagAttributes (s : Str) : AttrMap :=
  parseTagAttributesAux (s.length + 1) s []

/-- The attribute loop from an arbitrary position, with enough fuel for the
remaining input (each iteration consumes at least two characters). -/
def parseFrom (s : Str) (acc : AttrMap) : AttrMap :=
  parseTagAttributesAux (s.length + 1) s acc

/-! ## Enumerations (PlaylistTypes / AdaptiveUtils headers) -/

/-- `PLAYLIST::StreamType`. -/
inductive StreamType where
  | notype
  | video
  | audio
  | subtitle
deriving DecidableEq, Repr

/-- `PLAYLIST::ContainerType`. -/
inductive ContainerType where
  | notype
  | invalid
  | ts
  | adts
  | mp4
  | text
deriving DecidableEq, Repr

/-- `PLAYLIST::EncryptionType`. -/
inductive EncryptionType where
  | clear
  | notSupported
  | unknown
  | aes128
  | widevine
deriving DecidableEq, Repr

/-- `PLAYLIST::EncryptionState`. -/
inductive EncryptionState where
  | unencrypted
  | encrypted
  | encryptedSupported
deriving DecidableEq, Repr

/-- `PLAYLIST::PrepareRepStatus`. -/
inductive PrepareRepStatus where
  | ok
  | drmChanged
  | drmUnchanged
  | failure
deriving DecidableEq, Repr

/-- `CryptoMode`. -/
inductive CryptoMode where
  | none
  | aesCtr
  | aesCbc
deriving DecidableEq, Repr

/-- `PSSHSET_POS_DEFAULT`: the sentinel PSSHSet index 0. -/
def PSSHSET_POS_DEFAULT : Nat := 0

/-- Modelled from the spec: `SEGMENT_NO_NUMBER` sentinel ("no number"),
the maximal `uint64_t`. -/
def SEGMENT_NO_NUMBER : Nat := 2 ^ 64 - 1

/-- Modelled from the spec: `NO_PTS_VALUE` sentinel. -/
def NO_PTS_VALUE : Nat := 2 ^ 64 - 1

/-- Modelled from the spec: `CSegment::NO_RANGE_VALUE` sentinel. -/
def NO_RANGE_VALUE : Nat := 2 ^ 64 - 1

/-! ## PSSHSets (`CPeriod::PSSHSet`, `CPeriod::InsertPSSHSet` in Period.cpp) -/

/-- `CPeriod::PSSHSet`.  The adaptation-set back-pointer is modelled as an
optional identifier (`none` = the default-constructed null pointer). -/
structure PSSHSet where
  pssh : Str := []
  defaultKID : Str := []
  iv : Str := []
  streamType : StreamType := StreamType.notype
  adpSetId : Option Nat := none
  cryptoMode : CryptoMode := CryptoMode.none
  usageCount : Nat := 0
deriving DecidableEq, Repr

/-- Modelled from the spec: the `PSSHSet` equality comparator (declared in
Period.h, not part of the available sources): it compares
`(pssh, default_kid, iv, stream_type, adaptation_set)`, ignores the usage
count, and ignores the default KID when that field is empty on one side. -/
def psshEq (a b : PSSHSet) : Bool :=
  a.pssh = b.pssh && a.iv = b.iv && a.streamType = b.streamType &&
  a.adpSetId = b.adpSetId &&
  (a.defaultKID = b.defaultKID || a.defaultKID = [] || b.defaultKID = [])

/-- Bump the usage counter of the entry at `i` (out of range: the C++ would
be out-of-bounds, unreachable as every period owns the sentinel entry). -/
def bumpUsage (sets : List PSSHSet) (i : Nat) : List PSSHSet :=
  match sets.get? i with
  | none => sets
  | some e => sets.set i { e with usageCount := e.usageCount + 1 }

/-- `CPeriod::InsertPSSHSet` (Period.cpp lines 46-73): null candidate bumps
the sentinel at 0; otherwise find an equal entry from index 1 on (replacing
it with the candidate when unused), appending when absent; bump the resulting
entry's usage and return its index (cast to `uint16_t`). -/
def insertPSSHSet (sets : List PSSHSet) (cand : Option PSSHSet) :
    List PSSHSet × Nat :=
  match cand with
  | some c =>
    match (sets.drop 1).findIdx? (fun e => psshEq e c) with
    | none =>
      (sets ++ [{ c with usageCount := c.usageCount + 1 }], sets.length % 2 ^ 16)
    | some j =>
      let i := j + 1
      match sets.get? i with
      | none => (sets, i % 2 ^ 16) -- unreachable: the index was found in the list
      | some e =>
        let e' := if e.usageCount = 0 then c else e
        (sets.set i { e' with usageCount := e'.usageCount + 1 }, i % 2 ^ 16)
  | none =>
    (bumpUsage sets 0, PSSHSET_POS_DEFAULT)

/-! ## Segments, representations, periods -/

/-- `CSegment`; field defaults modelled from the spec's sentinels. -/
structure CSegment where
  url : Str := []
  startPTS : Nat := NO_PTS_VALUE
  duration : Nat := 0
  psshSet : Nat := PSSHSET_POS_DEFAULT
  rangeBegin : Nat := NO_RANGE_VALUE
  rangeEnd : Nat := NO_RANGE_VALUE
deriving DecidableEq, Repr

/-- Modelled from the spec: `ParseRangeValues` parses `len[@offset]`
(first out-parameter receives the length, second the optional offset);
returns `none` on unparsable input, leaving the out-parameters untouched. -/
def parseRangeValues (s : Str) : Option (Nat × Option Nat) :=
  match splitFirst '@' s with
  | (l, none) =>
    if l ≠ [] && l.all Char.isDigit then some (natOfDigits l, none) else none
  | (l, some r) =>
    if l ≠ [] && l.all Char.isDigit && r ≠ [] && r.all Char.isDigit then
      some (natOfDigits l, some (natOfDigits r))
    else none

/-- `CRepresentation`, restricted to the fields prepareRepresentation and
the master parser touch.  `currentSegment` models the `current_segment_`
pointer as an index into `timeline` (`none` = null). -/
structure CRepresentation where
  sourceUrl : Str := []
  url : Str := []
  isDownloaded : Bool := false
  timescale : Nat := 0
  containerType : ContainerType := ContainerType.notype
  hasInitialization : Bool := false
  hasSegmentsUrl : Bool := false
  duration : Nat := 0
  startNumber : Nat := 1
  timeline : List CSegment := []
  initialization : CSegment := {}
  psshSetPos : Nat := PSSHSET_POS_DEFAULT
  currentSegment : Option Nat := none
  isWaitForSegment : Bool := false
  includedStream : Bool := false
  bandwidth : Nat := 0
  codecs : List Str := []
  resWidth : Nat := 0
  resHeight : Nat := 0
  frameRate : Nat := 0
  frameRateScale : Nat := 0
  audioChannels : Nat := 0
deriving DecidableEq, Repr

/-- Modelled from the spec: `getCurrentSegmentNumber` — the current segment's
position in the timeline plus the start number, or the `SEGMENT_NO_NUMBER`
sentinel when there is no current segment. -/
def getCurrentSegmentNumber (r : CRepresentation) : Nat :=
  match r.currentSegment with
  | none => SEGMENT_NO_NUMBER
  | some i => i + r.startNumber

/-- Modelled from the spec: `get_segment` — the timeline entry at `pos`,
null when out of range. -/
def getSegment (r : CRepresentation) (pos : Nat) : Option CSegment :=
  r.timeline.get? pos

/-- `CPeriod`, restricted to the state prepareRepresentation touches.  The
model keeps only the representation at the fixed `(adpSetPos, reprPos)`
indices — the single representation the function reads or writes in every
period — and identifies the period's adaptation set by the period `id`
(pointer identity).  A fresh period owns the sentinel PSSHSet (Period.cpp
constructor). -/
structure CPeriod where
  id : Nat := 0
  sequence : Nat := 0
  timescale : Nat := 1000000
  duration : Nat := 0
  encryptionState : EncryptionState := EncryptionState.unencrypted
  includedStreamType : Nat := 0
  psshSets : List PSSHSet := [{}]
  rep : CRepresentation := {}
deriving DecidableEq, Repr

/-- `CPeriod::CopyHLSData` (Period.cpp lines 25-44) plus fresh construction:
timescale, duration, encryption state and included-stream mask are copied,
the sequence is not (it is absent from the copied field list), the PSSHSet
list starts over at the sentinel.  The representation copy is modelled from
the spec: "structural clone, segment timelines reset". -/
def clonePeriod (other : CPeriod) (newId : Nat) : CPeriod :=
  { id := newId
    sequence := 0
    timescale := other.timescale
    duration := other.duration
    encryptionState := other.encryptionState
    includedStreamType := other.includedStreamType
    psshSets := [{}]
    rep := { other.rep with timeline := [], currentSegment := none } }

/-! ## URL and byte-string helpers (repository utilities not in src) -/

/-- `pre` is an initial run of `s`. -/
def startsWith (pre s : Str) : Bool :=
  s.take pre.length = pre

/-- Modelled from the spec: `URL::IsUrlRelative` — no absolute scheme. -/
def isUrlRelative (s : Str) : Bool :=
  !(startsWith "http://".data s || startsWith "https://".data s)

/-- Modelled from the spec: `URL::Join` — resolve a relative URL against a
base URL. -/
def urlJoin (base rel : Str) : Str :=
  base ++ '/' :: rel

/-- Modelled from the spec: `URL::RemoveParameters` — drop the query part. -/
def removeParameters (s : Str) : Str :=
  (splitFirst '?' s).1

/-- Modelled from the spec: `STRING::ToHexNibble`. -/
def hexNibble (c : Char) : Nat :=
  if '0' ≤ c && c ≤ '9' then c.toNat - '0'.toNat
  else if 'a' ≤ c && c ≤ 'f' then c.toNat - 'a'.toNat + 10
  else if 'A' ≤ c && c ≤ 'F' then c.toNat - 'A'.toNat + 10
  else 0

/-- Modelled from the spec: the 16-byte KID decoded from a hex string
(HLSTree.cpp lines 1116-1125); characters past the end read as zero
nibbles (the C++ walks the NUL-terminated buffer). -/
def hexKID (keyid : Str) : Str :=
  (List.range 16).map fun i =>
    Char.ofNat (16 * hexNibble (keyid.getD (2 * i) '0') + hexNibble (keyid.getD (2 * i + 1) '0'))

/-- Modelled from the spec: the 6-bit value of a base64 alphabet character. -/
def b64Val (c : Char) : Nat :=
  if 'A' ≤ c && c ≤ 'Z' then c.toNat - 'A'.toNat
  else if 'a' ≤ c && c ≤ 'z' then c.toNat - 'a'.toNat + 26
  else if '0' ≤ c && c ≤ '9' then c.toNat - '0'.toNat + 52
  else if c = '+' then 62
  else if c = '/' then 63
  else 0

/-- Decode base64 quartets into byte values. -/
def base64DecodeAux : Str → List Nat
  | a :: b :: c :: d :: rest =>
    let n := b64Val a * 2 ^ 18 + b64Val b * 2 ^ 12 + b64Val c * 2 ^ 6 + b64Val d
    let bytes := [n / 2 ^ 16, n / 2 ^ 8 % 256, n % 256]
    let bytes := if d = '=' then (if c = '=' then bytes.take 1 else bytes.take 2) else bytes
    bytes ++ base64DecodeAux rest
  | _ => []

/-- Modelled from the spec: `BASE64::Decode` (standard base64). -/
def base64Decode (s : Str) : Str :=
  (base64DecodeAux s).map Char.ofNat

/-- Modelled from the spec: `AESDecrypter::convertIV` — "records IV (hex,
normalized to 16 bytes)": strip an optional `0x`, decode hex pairs; empty or
non-hex input yields the empty IV. -/
def convertIV (s : Str) : Str :=
  let t := if startsWith "0x".data s || startsWith "0X".data s then s.drop 2 else s
  if t ≠ [] && t.all (fun c => c.isDigit || ('a' ≤ c && c ≤ 'f') || ('A' ≤ c && c ≤ 'F')) then
    (List.range 16).map fun i =>
      Char.ofNat (16 * hexNibble (t.getD (2 * i) '0') + hexNibble (t.getD (2 * i + 1) '0'))
  else []

/-! ## Encryption state machine (`ProcessEncryption`, HLSTree.cpp 1084-1152) -/

/-- The tree's current encryption context: `m_currentPssh`,
`m_currentDefaultKID`, `m_currentIV`, `m_cryptoMode`. -/
structure EncContext where
  pssh : Str := []
  defaultKID : Str := []
  iv : Str := []
  cryptoMode : CryptoMode := CryptoMode.none
deriving DecidableEq, Repr

/-- The Widevine key-format URN. -/
def URN_WIDEVINE : Str :=
  "urn:uuid:edef8ba9-79d6-4ace-a3c8-27dcd51d21ed".data

/-- `CHLSTree::ProcessEncryption`: classify an `EXT-X-KEY` /
`EXT-X-SESSION-KEY` attribute map and update the current encryption
context. -/
def processEncryption (baseUrl : Str) (attribs : AttrMap) (ctx : EncContext) :
    EncryptionType × EncContext :=
  let encryptMethod := mapFind attribs "METHOD".data
  if encryptMethod = "NONE".data then
    (EncryptionType.clear, { ctx with pssh := [] })
  else if encryptMethod = "AES-128".data && mapFind attribs "URI".data ≠ [] then
    let pssh0 := mapFind attribs "URI".data
    let pssh := if isUrlRelative pssh0 then urlJoin baseUrl pssh0 else pssh0
    (EncryptionType.aes128,
      { ctx with pssh := pssh, iv := convertIV (mapFind attribs "IV".data) })
  else if compareNoCase (mapFind attribs "KEYFORMAT".data) URN_WIDEVINE &&
      mapFind attribs "URI".data ≠ [] then
    let kid1 :=
      if mapFind attribs "KEYID".data ≠ [] then
        hexKID ((mapFind attribs "KEYID".data).drop 2)
      else ctx.defaultKID
    let pssh := (mapFind attribs "URI".data).drop 23
    let kid2 :=
      if kid1 = [] && pssh.length = 68 then
        let dec := base64Decode pssh
        if dec.length = 50 then (dec.drop 34).take 16 else kid1
      else kid1
    let cm :=
      if encryptMethod = "SAMPLE-AES-CTR".data then CryptoMode.aesCtr
      else if encryptMethod = "SAMPLE-AES".data then CryptoMode.aesCbc
      else ctx.cryptoMode
    (EncryptionType.widevine,
      { ctx with pssh := pssh, defaultKID := kid2, cryptoMode := cm })
  else if compareNoCase (mapFind attribs "KEYFORMAT".data)
      "com.apple.streamingkeydelivery".data then
    (EncryptionType.notSupported, ctx)
  else
    (EncryptionType.unknown, ctx)

/-! ## Container detection (`DetectContainerTypeFromExt`, HLSTree.cpp 90-102) -/

/-- `DetectContainerTypeFromExt`. -/
def detectContainerTypeFromExt (extension : Str) : ContainerType :=
  if compareNoCase extension "ts".data then ContainerType.ts
  else if compareNoCase extension "aac".data then ContainerType.adts
  else if compareNoCase extension "mp4".data then ContainerType.mp4
  else if compareNoCase extension "vtt".data || compareNoCase extension "webvtt".data then
    ContainerType.text
  else ContainerType.invalid

/-- Index of the last occurrence of `ch` (`std::string::rfind`). -/
def rfindIdx? (ch : Char) (s : Str) : Option Nat :=
  match List.findIdx? (fun c => c = ch) s.reverse with
  | none => none
  | some j => some (s.length - 1 - j)

/-- Decrement the usage counter of the entry at `i`. -/
def decUsage (sets : List PSSHSet) (i : Nat) : List PSSHSet :=
  match sets.get? i with
  | none => sets
  | some e => sets.set i { e with usageCount := e.usageCount - 1 }

/-! ## Child playlist parsing (`CHLSTree::prepareRepresentation`, 182-652) -/

/-- The tree-level state `prepareRepresentation` reads and writes.
`curPeriodId` models the `m_currentPeriod` pointer, `nextPeriodId` is a
ghost supply of fresh period identities (pointer identity of freshly
allocated periods). -/
structure TreeState where
  periods : List CPeriod := []
  curPeriodId : Nat := 0
  nextPeriodId : Nat := 1
  discontSeq : Nat := 0
  hasDiscontSeq : Bool := false
  initialSequence : Option Nat := none
  updateInterval : Nat := 2 ^ 32 - 1
  refreshPlayList : Bool := true
  hasTimeshiftBuffer : Bool := true
  totalTimeSecs : Nat := 0
  enc : EncContext := {}
deriving DecidableEq, Repr

/-- The locals of the child-playlist parsing loop (HLSTree.cpp 214-233).
`periodIdx` models the `period` local as an index into `tree.periods`;
`wvTrace` is a ghost trace of the usage count right after each
`EXT-X-KEY`-triggered Widevine intern (used to characterize the returned
DRM status). -/
structure LoopState where
  tree : TreeState
  periodIdx : Nat := 0
  periodLost : Option CPeriod := none
  curEncType : EncryptionType := EncryptionType.clear
  curSegStartPts : Nat := 0
  newStartNumber : Nat := 0
  newSegments : List CSegment := []
  newSegment : Option CSegment := none
  segmentHasByteRange : Bool := false
  psshSetPos : Nat := PSSHSET_POS_DEFAULT
  segInit : CSegment := {}
  segInitUrl : Str := []
  hasSegmentInit : Bool := false
  discontCount : Nat := 0
  isExtM3U : Bool := false
  prepareStatus : PrepareRepStatus := PrepareRepStatus.ok
  wvTrace : List Nat := []
deriving DecidableEq, Repr

/-- The period the `period` local points at. -/
def LoopState.curPeriod (ls : LoopState) : CPeriod :=
  ls.tree.periods.getD ls.periodIdx {}

/-- Write back through the `period` local. -/
def LoopState.setPeriod (ls : LoopState) (p : CPeriod) : LoopState :=
  { ls with tree := { ls.tree with periods := ls.tree.periods.set ls.periodIdx p } }

/-- Mutate the representation the `rep` local points at. -/
def LoopState.modifyRep (ls : LoopState) (f : CRepresentation → CRepresentation) : LoopState :=
  ls.setPeriod { ls.curPeriod with rep := f ls.curPeriod.rep }

/-- The representation the `rep` local points at. -/
def LoopState.curRep (ls : LoopState) : CRepresentation :=
  ls.curPeriod.rep

/-- The period `m_currentPeriod` points at (possibly detached into
`periodLost`). -/
def LoopState.currentPeriod (ls : LoopState) : CPeriod :=
  match ls.tree.periods.find? (fun p => p.id = ls.tree.curPeriodId) with
  | some p => p
  | none => ls.periodLost.getD {}

/-- Modelled from the spec: `AdaptiveTree::InsertPsshSet` — build a candidate
PSSHSet from the current encryption context ("intern a PSSHSet in the
Period") and insert it through `CPeriod::InsertPSSHSet`; an empty PSSH
interns the null candidate (the sentinel). -/
def treeInsertPsshSet (st : StreamType) (p : CPeriod) (adpId : Option Nat)
    (enc : EncContext) : CPeriod × Nat :=
  let cand : Option PSSHSet :=
    if enc.pssh = [] then none
    else some { pssh := enc.pssh, defaultKID := enc.defaultKID, iv := enc.iv,
                streamType := st, adpSetId := adpId, cryptoMode := enc.cryptoMode,
                usageCount := 0 }
  let r := insertPSSHSet p.psshSets cand
  ({ p with psshSets := r.1 }, r.2)

/-- `EXT-X-TARGETDURATION` (HLSTree.cpp 330-337): the candidate interval is
`target * 1500` in `uint32_t` arithmetic; the stored interval only ever
shrinks. -/
def applyTargetDuration (interval target : Nat) : Nat :=
  let n := target * 1500 % 2 ^ 32
  if n < interval then n else interval

/-- `EXTINF` duration: `static_cast<uint64_t>(ToFloat(tagValue) * timescale)`
— the product truncated toward zero, here in exact rational arithmetic over
the parsed decimal. -/
def extinfDuration (tagValue : Str) (timescale : Nat) : Nat :=
  let p := toFloatParts tagValue
  p.1 * timescale / 10 ^ p.2

/-- The `EXT-X-DISCONTINUITY-SEQUENCE` purge loop (HLSTree.cpp 464-482):
erase every period with a sequence below the baseline, detaching (not
erasing) the one `m_currentPeriod` points at. -/
def purgePeriodsAux (curId baseline : Nat) :
    List CPeriod → List CPeriod → Option CPeriod → List CPeriod × Option CPeriod
  | [], acc, lost => (acc.reverse, lost)
  | p :: rest, acc, lost =>
    if p.sequence < baseline then
      if p.id ≠ curId then purgePeriodsAux curId baseline rest acc lost
      else purgePeriodsAux curId baseline rest acc (some p)
    else purgePeriodsAux curId baseline rest (p :: acc) lost

/-- Run the purge loop over the period list. -/
def purgePeriods (periods : List CPeriod) (curId baseline : Nat) :
    List CPeriod × Option CPeriod :=
  purgePeriodsAux curId baseline periods [] none

/-- Modelled from the spec: `AdaptiveTree::FreeSegments` — "Free existing
segments on the Representation": each segment releases its PSSHSet usage,
then the timeline is cleared. -/
def freeSegments (p : CPeriod) : CPeriod :=
  let sets := p.rep.timeline.foldl (fun ss seg => decUsage ss seg.psshSet) p.psshSets
  { p with psshSets := sets, rep := { p.rep with timeline := [] } }

/-- Record the DRM status and extend the ghost Widevine trace. -/
def LoopState.withDrm (ls : LoopState) (status : PrepareRepStatus) (usage : Nat) : LoopState :=
  { ls with prepareStatus := status, wvTrace := ls.wvTrace ++ [usage] }

/-- `#EXT-X-KEY` (HLSTree.cpp 253-286). -/
def applyKeyTag (adpStreamType : StreamType) (rootBaseUrl : Str) (ls : LoopState)
    (tagValue : Str) : Except LoopState LoopState :=
  let attribs := parseTagAttributes tagValue
  let r := processEncryption rootBaseUrl attribs ls.tree.enc
  let ls := { ls with tree := { ls.tree with enc := r.2 } }
  match r.1 with
  | EncryptionType.notSupported =>
    Except.error (ls.setPeriod { ls.curPeriod with encryptionState := EncryptionState.encrypted })
  | EncryptionType.aes128 =>
    Except.ok { ls with curEncType := EncryptionType.aes128, psshSetPos := PSSHSET_POS_DEFAULT }
  | EncryptionType.widevine =>
    let ls : LoopState := { ls with curEncType := EncryptionType.widevine }
    let p0 := { ls.curPeriod with encryptionState := EncryptionState.encryptedSupported }
    let ins := treeInsertPsshSet adpStreamType p0 (some p0.id) ls.tree.enc
    let p1 := { ins.1 with rep := { ins.1.rep with psshSetPos := ins.2 } }
    let usage := ((p1.psshSets.getD ins.2 {}).usageCount)
    let status :=
      if usage = 1 || decide (ls.prepareStatus = PrepareRepStatus.drmChanged) then
        PrepareRepStatus.drmChanged
      else PrepareRepStatus.drmUnchanged
    Except.ok ((ls.setPeriod p1).withDrm status usage)
  | _ => Except.ok ls

/-- `#EXT-X-MAP` (HLSTree.cpp 287-317). -/
def applyMapTag (baseUrl : Str) (ls : LoopState) (tagValue : Str) : LoopState :=
  let attribs := parseTagAttributes tagValue
  let ls :=
    if mapContains attribs "URI".data then
      let uri := mapFind attribs "URI".data
      let siu := if isUrlRelative uri then urlJoin baseUrl uri else uri
      let ls : LoopState := ls.modifyRep fun r =>
        { r with hasInitialization := true, containerType := ContainerType.mp4 }
      let si := { ls.segInit with
          url := siu, startPTS := NO_PTS_VALUE, psshSet := PSSHSET_POS_DEFAULT }
      { ls with segInitUrl := siu, segInit := si, hasSegmentInit := true }
    else ls
  if mapContains attribs "BYTERANGE".data then
    match parseRangeValues (mapFind attribs "BYTERANGE".data) with
    | some lenOff =>
      let rb := match lenOff.2 with
        | some o => o
        | none => ls.segInit.rangeBegin
      { ls with segInit := { ls.segInit with rangeBegin := rb, rangeEnd := rb + lenOff.1 - 1 } }
    | none => ls
  else
    { ls with segInit := { ls.segInit with rangeBegin := NO_RANGE_VALUE } }

/-- `#EXT-X-BYTERANGE` with a pending segment (HLSTree.cpp 350-364): parse
`len[@offset]`, inherit a missing offset from the previous segment's end + 1
(0 for the first segment), then `range_end_ += range_begin_` — as in the
source, with no `- 1`. -/
def applyByteRangeTag (ls : LoopState) (tagValue : Str) (seg : CSegment) : LoopState :=
  let seg :=
    match parseRangeValues tagValue with
    | some lenOff =>
      let rb := (match lenOff.2 with | some o => o | none => seg.rangeBegin)
      { seg with rangeEnd := lenOff.1, rangeBegin := rb }
    | none => seg
  let seg :=
    if seg.rangeBegin = NO_RANGE_VALUE then
      let rb := (match ls.newSegments.getLast? with | some prev => prev.rangeEnd + 1 | none => 0)
      { seg with rangeBegin := rb }
    else seg
  let seg := { seg with rangeEnd := seg.rangeEnd + seg.rangeBegin }
  { ls with newSegment := some seg, segmentHasByteRange := true }

/-- Tail of the URI-line branch (HLSTree.cpp 422-451): resolve the URL onto
the segment or the representation, intern or bump the AES-128 PSSHSet
(`period->InsertPSSHSet(pos)` — the index overload, modelled from the spec:
"bump the usage count of the existing PSSH"), append the segment. -/
def finishUriLine (baseUrl : Str) (ls : LoopState) (line : Str) (seg : CSegment) : LoopState :=
  let st :=
    if !ls.segmentHasByteRange || decide (ls.curRep.url = []) then
      let url := if isUrlRelative line then urlJoin baseUrl line else line
      if !ls.segmentHasByteRange then (ls, { seg with url := url })
      else (ls.modifyRep fun r => { r with url := url }, seg)
    else (ls, seg)
  let ls := st.1
  let seg := st.2
  let st :=
    if ls.curEncType = EncryptionType.aes128 then
      if ls.psshSetPos = PSSHSET_POS_DEFAULT then
        let ins := treeInsertPsshSet StreamType.notype ls.curPeriod (some ls.curPeriod.id)
          ls.tree.enc
        ({ (ls.setPeriod ins.1) with psshSetPos := ins.2 }, { seg with psshSet := ins.2 })
      else
        (ls.setPeriod { ls.curPeriod with
            psshSets := bumpUsage ls.curPeriod.psshSets seg.psshSet }, seg)
    else (ls, seg)
  let ls := st.1
  let seg := st.2
  { ls with newSegments := ls.newSegments ++ [seg], newSegment := none }

/-- The URI-line branch (HLSTree.cpp 365-452): container detection on the
first segment (the extension is taken from the last `.` of the raw line,
dot included, as in the source), skip when the container is INVALID. -/
def applyUriLine (adpStreamType : StreamType) (baseUrl : Str) (ls : LoopState)
    (line : Str) (seg : CSegment) : LoopState :=
  if ls.curRep.containerType = ContainerType.notype then
    let extension :=
      match rfindIdx? '.' line with
      | some extPos => line.drop extPos
      | none => []
    let ct0 :=
      if extension ≠ [] then detectContainerTypeFromExt extension else ContainerType.invalid
    let ct :=
      if ct0 = ContainerType.invalid then
        match adpStreamType with
        | StreamType.video => ContainerType.ts
        | StreamType.audio => ContainerType.adts
        | StreamType.subtitle => ContainerType.text
        | _ => ct0
      else ct0
    finishUriLine baseUrl (ls.modifyRep fun r => { r with containerType := ct }) line seg
  else if ls.curRep.containerType = ContainerType.invalid then
    { ls with newSegment := none }
  else
    finishUriLine baseUrl ls line seg

/-- `#EXT-X-DISCONTINUITY-SEQUENCE` (HLSTree.cpp 453-487): record the new
baseline, back-fill period 0's sequence on an initial parse, purge stale
periods (detaching the pinned current period), rebind the `period` local to
index 0. -/
def applyDiscontSeqTag (update : Bool) (ls : LoopState) (tagValue : Str) : LoopState :=
  let newSeq := toUint32 tagValue
  let initSeq := (match ls.tree.initialSequence with | none => some newSeq | s => s)
  let t1 : TreeState := { ls.tree with
      discontSeq := newSeq, initialSequence := initSeq, hasDiscontSeq := true }
  let lastSeq : Nat := (t1.periods.getLast?.getD {}).sequence
  let periods1 : List CPeriod :=
    if !update && decide (newSeq > 0) && decide (lastSeq = 0) then
      match t1.periods with
      | [] => []
      | p :: rest => { p with sequence := newSeq } :: rest
    else t1.periods
  let pr := purgePeriods periods1 t1.curPeriodId newSeq
  let lost := (match pr.2 with | some p => some p | none => ls.periodLost)
  { ls with
      tree := { t1 with periods := pr.1 }, periodLost := lost, periodIdx := 0 }

/-- `#EXT-X-DISCONTINUITY` step (HLSTree.cpp 493-494): stamp the current
period's sequence. -/
def adtStep1 (ls : LoopState) : LoopState :=
  ls.setPeriod { ls.curPeriod with
    sequence := ls.tree.discontSeq + ls.discontCount }

/-- `#EXT-X-DISCONTINUITY` step (HLSTree.cpp 496-497): a segment list without
byte ranges means the representation has per-segment URLs. -/
def adtStep2 (ls : LoopState) : LoopState :=
  if !ls.segmentHasByteRange then ls.modifyRep fun r => { r with hasSegmentsUrl := true }
  else ls

/-- `#EXT-X-DISCONTINUITY` step (HLSTree.cpp 499-500): representation duration
from the PTS span of the finished window. -/
def adtStep3 (ls : LoopState) : LoopState :=
  let duration := ls.curSegStartPts - (ls.newSegments.headD {}).startPTS
  ls.modifyRep fun r => { r with duration := duration }

/-- `#EXT-X-DISCONTINUITY` step (HLSTree.cpp 502-506): non-subtitle streams
set the period duration rescaled to the period timescale. -/
def adtStep4 (adpStreamType : StreamType) (ls : LoopState) : LoopState :=
  if adpStreamType ≠ StreamType.subtitle then
    let pd := ls.curRep.duration * (ls.tree.periods.getD ls.discontCount {}).timescale /
      ls.curRep.timescale
    ls.setPeriod { ls.curPeriod with duration := pd }
  else ls

/-- `#EXT-X-DISCONTINUITY` step (HLSTree.cpp 508): FreeSegments on the current
period. -/
def adtStep5 (ls : LoopState) : LoopState :=
  ls.setPeriod (freeSegments ls.curPeriod)

/-- `#EXT-X-DISCONTINUITY` step (HLSTree.cpp 510-512): swap the collected
segments into the representation timeline and clear the accumulator;
`swapped` is the collected list (`newSegments` is unchanged by the earlier
steps, so it is captured once at the top of `applyDiscontTag`). -/
def adtStep6 (swapped : List CSegment) (ls : LoopState) : LoopState :=
  let ls : LoopState := ls.modifyRep fun r => { r with
      timeline := swapped, startNumber := ls.newStartNumber }
  { ls with newSegments := [] }

/-- `#EXT-X-DISCONTINUITY` step (HLSTree.cpp 514-519): move the pending
initialization segment into the representation and keep its URL for the next
period. -/
def adtStep7 (ls : LoopState) : LoopState :=
  if ls.hasSegmentInit then
    let oldInit := ls.curRep.initialization
    let ls : LoopState := ls.modifyRep fun r => { r with initialization := ls.segInit }
    { ls with segInit := { oldInit with url := ls.segInitUrl } }
  else ls

/-- `#EXT-X-DISCONTINUITY` step (HLSTree.cpp 521-533): advance to the next
period, cloning a fresh one from the current if none exists yet. -/
def adtStep8 (ls : LoopState) : LoopState :=
  let dc := ls.discontCount + 1
  if ls.tree.periods.length = dc then
    let newP := clonePeriod ls.currentPeriod ls.tree.nextPeriodId
    let t2 := { ls.tree with
        periods := ls.tree.periods ++ [newP], nextPeriodId := ls.tree.nextPeriodId + 1 }
    { ls with tree := t2, discontCount := dc, periodIdx := dc }
  else { ls with discontCount := dc, periodIdx := dc }

/-- `#EXT-X-DISCONTINUITY` step (HLSTree.cpp 535-536): advance the start
number by the swapped window and reset the PTS accumulator. -/
def adtStep9 (swapped : List CSegment) (ls : LoopState) : LoopState :=
  { ls with newStartNumber := ls.newStartNumber + swapped.length, curSegStartPts := 0 }

/-- `#EXT-X-DISCONTINUITY` step (HLSTree.cpp 538-545): under Widevine, intern
the session PSSH into the (new) current period and mark it encrypted. -/
def adtStep10 (adpStreamType : StreamType) (ls : LoopState) : LoopState :=
  if ls.curEncType = EncryptionType.widevine then
    let ins := treeInsertPsshSet adpStreamType ls.curPeriod (some ls.curPeriod.id)
      ls.tree.enc
    ls.setPeriod { ins.1 with
        rep := { ins.1.rep with psshSetPos := ins.2 },
        encryptionState := EncryptionState.encryptedSupported }
  else ls

/-- `#EXT-X-DISCONTINUITY` step (HLSTree.cpp 547-550): a pending
initialization URL re-marks the representation as fMP4 with initialization. -/
def adtStep11 (ls : LoopState) : LoopState :=
  let siNonEmpty : Bool := decide (ls.segInitUrl ≠ [])
  if ls.hasSegmentInit && siNonEmpty then
    ls.modifyRep fun r => { r with hasInitialization := true, containerType := ContainerType.mp4 }
  else ls

/-- `#EXT-X-DISCONTINUITY` (HLSTree.cpp 488-550): finalize the current
period's segment window and step into (or clone) the next period; written as
a composition of the numbered steps above, in source order. -/
def applyDiscontTag (adpStreamType : StreamType) (ls : LoopState) : LoopState :=
  if ls.newSegments = [] then ls -- "Segment at position 0 not found": log and continue
  else
    let swapped := ls.newSegments
    adtStep11 (adtStep10 adpStreamType (adtStep9 swapped (adtStep8 (adtStep7
      (adtStep6 swapped (adtStep5 (adtStep4 adpStreamType (adtStep3
        (adtStep2 (adtStep1 ls))))))))))

/-- One line of the child-playlist loop (HLSTree.cpp 235-556); `Except.error`
models the early `return PrepareRepStatus::FAILURE` on unsupported
encryption. -/
def processLine (update : Bool) (adpStreamType : StreamType) (rootBaseUrl baseUrl : Str)
    (ls : LoopState) (line : Str) : Except LoopState LoopState :=
  let tv := parseTagNameValue line
  let tagName := tv.1
  let tagValue := tv.2
  if !ls.isExtM3U then
    Except.ok (if tagName = "#EXTM3U".data then { ls with isExtM3U := true } else ls)
  else if tagName = "#EXT-X-KEY".data then
    applyKeyTag adpStreamType rootBaseUrl ls tagValue
  else if tagName = "#EXT-X-MAP".data then
    Except.ok (applyMapTag baseUrl ls tagValue)
  else if tagName = "#EXT-X-MEDIA-SEQUENCE".data then
    Except.ok { ls with newStartNumber := toUint64 tagValue }
  else if tagName = "#EXT-X-PLAYLIST-TYPE".data then
    Except.ok (if compareNoCase tagValue "VOD".data then
      { ls with tree := { ls.tree with
          refreshPlayList := false, hasTimeshiftBuffer := false } }
      else ls)
  else if tagName = "#EXT-X-TARGETDURATION".data then
    Except.ok { ls with tree := { ls.tree with
        updateInterval := applyTargetDuration ls.tree.updateInterval (toUint32 tagValue) } }
  else if tagName = "#EXTINF".data then
    let d := extinfDuration tagValue ls.curRep.timescale
    let seg : CSegment := { url := [], startPTS := ls.curSegStartPts, duration := d,
                            psshSet := ls.psshSetPos }
    Except.ok { ls with newSegment := some seg, curSegStartPts := ls.curSegStartPts + d }
  else if tagName = "#EXT-X-BYTERANGE".data && ls.newSegment.isSome then
    Except.ok (applyByteRangeTag ls tagValue (ls.newSegment.getD {}))
  else if ls.newSegment.isSome && decide (line ≠ []) && decide (line.headD ' ' ≠ '#') then
    Except.ok (applyUriLine adpStreamType baseUrl ls line (ls.newSegment.getD {}))
  else if tagName = "#EXT-X-DISCONTINUITY-SEQUENCE".data then
    Except.ok (applyDiscontSeqTag update ls tagValue)
  else if tagName = "#EXT-X-DISCONTINUITY".data then
    Except.ok (applyDiscontTag adpStreamType ls)
  else if tagName = "#EXT-X-ENDLIST".data then
    Except.ok { ls with tree := { ls.tree with
        refreshPlayList := false, hasTimeshiftBuffer := false } }
  else
    Except.ok ls

/-- Run the child-playlist loop over the remaining lines. -/
def runChildLines (update : Bool) (adpStreamType : StreamType) (rootBaseUrl baseUrl : Str) :
    LoopState → List Str → Except LoopState LoopState
  | ls, [] => Except.ok ls
  | ls, line :: rest =>
    match processLine update adpStreamType rootBaseUrl baseUrl ls line with
    | Except.error e => Except.error e
    | Except.ok ls' => runChildLines update adpStreamType rootBaseUrl baseUrl ls' rest

/-- Apply `f` to the period at index `i` (no-op out of range). -/
def setPeriodAt (ps : List CPeriod) (i : Nat) (f : CPeriod → CPeriod) : List CPeriod :=
  match ps.get? i with
  | none => ps
  | some p => ps.set i (f p)

/-- Epilogue step (HLSTree.cpp 559-563): a window without byte ranges means
per-segment URLs; then FreeSegments on the current period. -/
def ceStepA (ls : LoopState) : LoopState :=
  let ls : LoopState :=
    if !ls.segmentHasByteRange then ls.modifyRep fun r => { r with hasSegmentsUrl := true }
    else ls
  ls.setPeriod (freeSegments ls.curPeriod)

/-- Epilogue step (HLSTree.cpp 570-575): swap the collected segments into the
timeline, clear the accumulator, move a pending initialization segment in. -/
def ceStepB (swapped : List CSegment) (ls : LoopState) : LoopState :=
  let ls : LoopState := ls.modifyRep fun r => { r with
      timeline := swapped, startNumber := ls.newStartNumber }
  let ls : LoopState := { ls with newSegments := [] }
  if ls.hasSegmentInit then ls.modifyRep fun r => { r with initialization := ls.segInit }
  else ls

/-- Epilogue step (HLSTree.cpp 577-583): representation duration from the PTS
span; stamp the current period's sequence. -/
def ceStepC (ls : LoopState) : LoopState :=
  let reprDuration :=
    match ls.curRep.timeline.head? with
    | some s0 => ls.curSegStartPts - s0.startPTS
    | none => 0
  let ls : LoopState := ls.modifyRep fun r => { r with duration := reprDuration }
  ls.setPeriod { ls.curPeriod with
    sequence := ls.tree.discontSeq + ls.discontCount }

/-- Epilogue step (HLSTree.cpp 586-607), multi-period branch: rescale the
last period's duration, sum total seconds, optionally mark everything
downloaded. -/
def ceStepD1 (adpStreamType : StreamType) (markDownloaded : Bool) (ls : LoopState) :
    LoopState × Nat :=
  let ls : LoopState :=
    if adpStreamType ≠ StreamType.subtitle then
      let pd := ls.curRep.duration *
        (ls.tree.periods.getD ls.discontCount {}).timescale / ls.curRep.timescale
      let ps2 := setPeriodAt ls.tree.periods ls.discontCount fun p =>
        { p with duration := pd }
      { ls with tree := { ls.tree with periods := ps2 } }
    else ls
  let total := ls.tree.periods.foldl (fun acc p => acc + p.duration / p.timescale) 0
  let ls : LoopState :=
    if markDownloaded then
      let ps3 := ls.tree.periods.map fun p =>
        { p with rep := { p.rep with isDownloaded := true } }
      { ls with tree := { ls.tree with periods := ps3 } }
    else ls
  (ls, total)

/-- Epilogue step (HLSTree.cpp 609-613), single-period branch. -/
def ceStepD2 (markDownloaded : Bool) (ls : LoopState) : LoopState × Nat :=
  let total := ls.curRep.duration / ls.curRep.timescale
  let ls : LoopState :=
    if markDownloaded then ls.modifyRep fun r => { r with isDownloaded := true }
    else ls
  (ls, total)

/-- Epilogue step (HLSTree.cpp 585-617): choose the period branch and store
the total seconds for non-subtitle streams. -/
def ceStepD (adpStreamType : StreamType) (ls : LoopState) : LoopState :=
  let markDownloaded := !ls.tree.hasTimeshiftBuffer && !ls.tree.refreshPlayList
  let r :=
    if decide (ls.discontCount > 0) || ls.tree.hasDiscontSeq then
      ceStepD1 adpStreamType markDownloaded ls
    else ceStepD2 markDownloaded ls
  let ls : LoopState := r.1
  if adpStreamType ≠ StreamType.subtitle then
    { ls with tree := { ls.tree with totalTimeSecs := r.2 } }
  else ls

/-- After-loop section of the child parse (HLSTree.cpp 558-618);
`Except.error` models the `return PrepareRepStatus::FAILURE` paths (missing
`#EXTM3U`, no segments parsed), which keep the tree mutations made so far
and skip both the update block and the periodLost reinsertion.  Written as a
composition of the lettered steps above, in source order. -/
def childEpilogue (adpStreamType : StreamType) (ls : LoopState) :
    Except TreeState LoopState :=
  if !ls.isExtM3U then Except.error ls.tree
  else
    let ls : LoopState := ceStepA ls
    if ls.newSegments = [] then Except.error ls.tree
    else
      let swapped := ls.newSegments
      Except.ok (ceStepD adpStreamType (ceStepC (ceStepB swapped ls)))

/-- Modelled from the spec: `get_next_segment` — whether a segment after the
current one exists ("a next segment now exists"); with no current segment
the first timeline entry counts as next. -/
def nextSegmentExists (cur : Option Nat) (size : Nat) : Bool :=
  match cur with
  | none => decide (0 < size)
  | some i => decide (i + 1 < size)

/-- Cursor repositioning of the update block (HLSTree.cpp 623-638). -/
def updateWindow (num : Nat) (r : CRepresentation) : CRepresentation :=
  if decide (num = 0) || decide (num < r.startNumber) || decide (num = SEGMENT_NO_NUMBER) then
    { r with currentSegment := none }
  else
    let n :=
      if r.startNumber + r.timeline.length ≤ num then r.startNumber + r.timeline.length - 1
      else num
    { r with currentSegment :=
        match getSegment r (n - r.startNumber) with
        | some _ => some (n - r.startNumber)
        | none => none }

/-- Waiting-flag clearing of the update block (HLSTree.cpp 639-643). -/
def applyWaitFlag (curNotLast : Bool) (r : CRepresentation) : CRepresentation :=
  if r.isWaitForSegment && (nextSegmentExists r.currentSegment r.timeline.length || curNotLast) then
    { r with isWaitForSegment := false }
  else r

/-- Apply `f` to the tracked representation of the period identified by
`pid`. -/
def modifyRepById (ps : List CPeriod) (pid : Nat) (f : CRepresentation → CRepresentation) :
    List CPeriod :=
  ps.map fun p => if p.id = pid then { p with rep := f p.rep } else p

/-- Common tail of `prepareRepresentation` (HLSTree.cpp 621-651): the
`update` block repositions the entry representation's cursor, then a
detached pinned period is reinserted at the front.  (`StartUpdateThread` on
the non-update path is an external side effect, not modelled.) -/
def finishPrepare (tree : TreeState) (periodLost : Option CPeriod) (update : Bool)
    (entryId entrySegNumber : Nat) (status : PrepareRepStatus) :
    TreeState × PrepareRepStatus :=
  let lastId := (tree.periods.getLast?.getD {}).id
  let curNotLast := tree.curPeriodId ≠ lastId
  let f : CRepresentation → CRepresentation := fun r =>
    applyWaitFlag curNotLast (updateWindow entrySegNumber r)
  let tree1 := if update then { tree with periods := modifyRepById tree.periods entryId f }
    else tree
  let lost1 :=
    if update then periodLost.map fun p => if p.id = entryId then { p with rep := f p.rep } else p
    else periodLost
  let tree2 :=
    match lost1 with
    | some p => { tree1 with periods := p :: tree1.periods }
    | none => tree1
  (tree2, status)

/-- Tail of the downloaded-playlist path of `prepareRepresentation`
(HLSTree.cpp 558-651): epilogue, then the common `finishPrepare` tail with
the loop's status. -/
def prepareEpi (tree0 : TreeState) (argPeriodIdx : Nat) (adpStreamType : StreamType)
    (update : Bool) (ls1 : LoopState) : TreeState × PrepareRepStatus :=
  match childEpilogue adpStreamType ls1 with
  | Except.error t => (t, PrepareRepStatus.failure)
  | Except.ok ls2 =>
    finishPrepare ls2.tree ls2.periodLost update (tree0.periods.getD argPeriodIdx {}).id
      (getCurrentSegmentNumber (tree0.periods.getD argPeriodIdx {}).rep) ls2.prepareStatus

/-- Downloaded-playlist path of `prepareRepresentation` (HLSTree.cpp
210-651): run the child loop over the non-empty lines, FAILURE on the early
return, otherwise the epilogue tail. -/
def prepareDl (tree0 : TreeState) (argPeriodIdx : Nat) (adpStreamType : StreamType)
    (update : Bool) (rootBaseUrl eu : Str) (rawLines : List Str) :
    TreeState × PrepareRepStatus :=
  match runChildLines update adpStreamType rootBaseUrl (removeParameters eu)
      { tree := tree0, periodIdx := argPeriodIdx } (rawLines.filter (fun l => l ≠ [])) with
  | Except.error lsF => (lsF.tree, PrepareRepStatus.failure)
  | Except.ok ls1 => prepareEpi tree0 argPeriodIdx adpStreamType update ls1

/-- `CHLSTree::prepareRepresentation` (HLSTree.cpp 182-652).  The triggering
representation is the tracked one of `tree0.periods[argPeriodIdx]`;
`download` is the HTTP fetch oracle for the child playlist (`none` = fetch
failed), carrying the effective URL and the playlist lines (the `GetLine`
lexer delivers the non-empty lines, spec 4.1). -/
def prepareRep (tree0 : TreeState) (argPeriodIdx : Nat) (adpStreamType : StreamType)
    (update : Bool) (rootBaseUrl : Str) (download : Option (Str × List Str)) :
    TreeState × PrepareRepStatus :=
  let entryPeriod := tree0.periods.getD argPeriodIdx {}
  let entryId := entryPeriod.id
  let rep0 := entryPeriod.rep
  if rep0.sourceUrl = [] then (tree0, PrepareRepStatus.failure)
  else
    let entrySegNumber := getCurrentSegmentNumber rep0
    if rep0.isDownloaded then
      finishPrepare tree0 none update entryId entrySegNumber PrepareRepStatus.ok
    else
      match download with
      | none => finishPrepare tree0 none update entryId entrySegNumber PrepareRepStatus.ok
      | some dl =>
        prepareDl tree0 argPeriodIdx adpStreamType update rootBaseUrl dl.1 dl.2

/-! ## Master playlist parsing (`CHLSTree::ParseManifest`, HLSTree.cpp 792-1082) -/

/-- Byte-wise lexicographic order on strings (`std::string` comparison,
the key order of `std::map`). -/
def strLt : Str → Str → Bool
  | [], [] => false
  | [], _ :: _ => true
  | _ :: _, [] => false
  | a :: as, b :: bs =>
    if a.toNat < b.toNat then true
    else if b.toNat < a.toNat then false
    else strLt as bs

/-- Modelled from the spec: `CRepresentation::AddCodecs` — add the entries of
a comma-separated codec list. -/
def splitOnAux (ch : Char) : Str → Str → List Str
  | [], cur => [cur.reverse]
  | c :: cs, cur =>
    if c = ch then cur.reverse :: splitOnAux ch cs []
    else splitOnAux ch cs (c :: cur)

/-- Split at every occurrence of `ch`; the empty string yields no parts
(`StringUtils::Split`). -/
def splitOnChar (ch : Char) (s : Str) : List Str :=
  if s = [] then [] else splitOnAux ch s []

/-- Modelled from the spec: `AddCodecs` — append the comma-separated,
trimmed codec names. -/
def addCodecs (cs : List Str) (v : Str) : List Str :=
  if v = [] then cs else cs ++ (splitOnChar ',' v).map trimStr

/-- `std::string::find(sub) != npos`: contiguous substring test. -/
def containsSub (sub : Str) : Str → Bool
  | [] => decide (sub = [])
  | c :: cs => startsWith sub (c :: cs) || containsSub sub cs

/-- `ContainsCodec`: some stored codec name contains `sub`. -/
def containsCodec (cs : List Str) (sub : Str) : Bool :=
  cs.any fun c => containsSub sub c

/-- `GetAudioCodec` from a CODECS attribute value (HLSTree.cpp 105-120). -/
def getAudioCodecOfAttr (codecs : Str) : Str :=
  if containsSub "ec-3".data codecs then "ec-3".data
  else if containsSub "ac-3".data codecs then "ac-3".data
  else "aac".data

/-- `GetAudioCodec` from a representation (HLSTree.cpp 122-130). -/
def getAudioCodecOfRep (r : CRepresentation) : Str :=
  if containsCodec r.codecs "ec-3".data then "ec-3".data
  else if containsCodec r.codecs "ac-3".data then "ac-3".data
  else "aac".data

/-- Modelled from the spec: `BuildDownloadUrl` — resolve a possibly relative
URL against the manifest base URL. -/
def buildDownloadUrl (base url : Str) : Str :=
  if isUrlRelative url then urlJoin base url else url

/-- A master-playlist adaptation set (the fields the master builder sets). -/
structure MAdpSet where
  streamType : StreamType := StreamType.notype
  language : Str := []
  name : Str := []
  isDefault : Bool := false
  isForced : Bool := false
  containerType : ContainerType := ContainerType.notype
  reps : List CRepresentation := []
deriving DecidableEq, Repr

/-- `CHLSTree::ExtGroup`: the alternate renditions buffered under a
`GROUP-ID`, with the codec string back-filled by `EXT-X-STREAM-INF`. -/
structure ExtGroup where
  codecs : Str := []
  adpSets : List MAdpSet := []
deriving DecidableEq, Repr

/-- `m_extGroups[k]` (`std::map::operator[]`: a missing key reads as a fresh
group). -/
def groupsGet (gs : List (Str × ExtGroup)) (k : Str) : ExtGroup :=
  match gs with
  | [] => {}
  | (k0, g) :: rest => if k0 = k then g else groupsGet rest k

/-- Store a group under its key, keeping the list sorted by key as
`std::map` iteration order requires. -/
def groupsSet (gs : List (Str × ExtGroup)) (k : Str) (g : ExtGroup) :
    List (Str × ExtGroup) :=
  match gs with
  | [] => [(k, g)]
  | (k0, g0) :: rest =>
    if k0 = k then (k0, g) :: rest
    else if strLt k k0 then (k, g) :: (k0, g0) :: rest
    else (k0, g0) :: groupsSet rest k g

/-- Modelled from the spec: `ExtGroup::SetCodecs` — "once the video
`EXT-X-STREAM-INF` supplies the group's codecs, they can be back-filled":
the first codec string wins and is also added to the already-buffered
renditions. -/
def extGroupSetCodecs (g : ExtGroup) (codecs : Str) : ExtGroup :=
  if g.codecs = [] then
    { g with codecs := codecs,
             adpSets := g.adpSets.map fun a =>
               { a with reps := match a.reps with
                   | [] => []
                   | r :: rs => { r with codecs := addCodecs r.codecs codecs } :: rs } }
  else g

/-- The state of the master-playlist loop. -/
structure MasterState where
  adpSets : List MAdpSet := []
  includedStreamType : Nat := 0
  extGroups : List (Str × ExtGroup) := []
  createDummyAudioRepr : Bool := false
  isExtM3U : Bool := false
  enc : EncContext := {}
deriving DecidableEq, Repr

/-- Bit index of a stream type (`1U << static_cast<int>(type)`). -/
def streamTypeBit : StreamType → Nat
  | StreamType.notype => 0
  | StreamType.video => 1
  | StreamType.audio => 2
  | StreamType.subtitle => 3

/-- `#EXT-X-MEDIA` (HLSTree.cpp 824-880). -/
def applyMediaTag (baseUrl : Str) (ms : MasterState) (tagValue : Str) : MasterState :=
  let attribs := parseTagAttributes tagValue
  let streamType :=
    if mapFind attribs "TYPE".data = "AUDIO".data then StreamType.audio
    else if mapFind attribs "TYPE".data = "SUBTITLES".data then StreamType.subtitle
    else StreamType.notype
  if streamType = StreamType.notype then ms
  else
    let groupId := mapFind attribs "GROUP-ID".data
    let group := groupsGet ms.extGroups groupId
    let lang := mapFind attribs "LANGUAGE".data
    let repr0 : CRepresentation := { codecs := addCodecs [] group.codecs, timescale := 1000000 }
    let st :=
      if mapContains attribs "URI".data then
        let r := { repr0 with
            sourceUrl := buildDownloadUrl baseUrl (mapFind attribs "URI".data) }
        let r := if streamType = StreamType.subtitle then
            { r with codecs := addCodecs r.codecs "wvtt".data }
          else r
        (r, ms.includedStreamType)
      else
        ({ repr0 with includedStream := true },
          ms.includedStreamType ||| 2 ^ streamTypeBit streamType)
    let r := st.1
    let r :=
      if streamType = StreamType.audio then
        { r with audioChannels := toUintDef (mapFind attribs "CHANNELS".data) 2 % 2 ^ 32 }
      else r
    let adpSet : MAdpSet :=
      { streamType := streamType,
        language := if lang = [] then "unk".data else lang,
        name := mapFind attribs "NAME".data,
        isDefault := mapFind attribs "DEFAULT".data = "YES".data,
        isForced := mapFind attribs "FORCED".data = "YES".data,
        reps := [r] }
    { ms with includedStreamType := st.2,
              extGroups := groupsSet ms.extGroups groupId
                { group with adpSets := group.adpSets ++ [adpSet] } }

/-- `#EXT-X-STREAM-INF` (HLSTree.cpp 881-977).  Returns the new state and
whether the following URI line was consumed. -/
def applyStreamInfTag (baseUrl : Str) (ms : MasterState) (tagValue : Str)
    (nextLine : Option Str) : MasterState × Bool :=
  let attribs := parseTagAttributes tagValue
  if !(mapContains attribs "BANDWIDTH".data) then
    -- "Skipped EXT-X-STREAM-INF due to missing bandwidth attribute": log and continue
    (ms, false)
  else
    let ms :=
      if ms.adpSets = [] then
        { ms with adpSets := [{ streamType := StreamType.video }] }
      else ms
    let repr0 : CRepresentation := { timescale := 1000000 }
    let repr1 :=
      if mapContains attribs "CODECS".data then
        { repr0 with codecs := addCodecs [] (mapFind attribs "CODECS".data) }
      else
        { repr0 with codecs := addCodecs [] "h264".data }
    let repr2 := { repr1 with bandwidth := toUint32 (mapFind attribs "BANDWIDTH".data) }
    let repr3 :=
      if mapContains attribs "RESOLUTION".data then
        let rv := mapFind attribs "RESOLUTION".data
        match splitFirst 'x' rv with
        | (w, some h) =>
          { repr2 with resWidth := toUintDef w 0, resHeight := toUintDef h 0 }
        | (_, none) => repr2
      else repr2
    let ms :=
      if mapContains attribs "AUDIO".data then
        let gid := mapFind attribs "AUDIO".data
        let g := groupsGet ms.extGroups gid
        let g' := extGroupSetCodecs g (getAudioCodecOfAttr (mapFind attribs "CODECS".data))
        { ms with extGroups := groupsSet ms.extGroups gid g' }
      else
        let inc := ms.includedStreamType ||| 2 ^ streamTypeBit StreamType.audio
        { ms with includedStreamType := inc, createDummyAudioRepr := true }
    let repr4 :=
      if mapContains attribs "FRAME-RATE".data then
        let fp := toFloatParts (mapFind attribs "FRAME-RATE".data)
        if fp.1 = 0 then
          { repr3 with frameRate := 60000, frameRateScale := 1000 }
        else
          { repr3 with frameRate := fp.1 * 1000 / 10 ^ fp.2 % 2 ^ 32,
                       frameRateScale := 1000 }
      else repr3
    match nextLine with
    | some l =>
      if l ≠ [] && l.headD ' ' ≠ '#' then
        let sourceUrl := buildDownloadUrl baseUrl l
        let adp0 := ms.adpSets.headD {}
        if adp0.reps.any (fun r0 => r0.sourceUrl = sourceUrl) then
          (ms, true) -- duplicate URL: the representation is not added
        else
          let adp1 := { adp0 with reps := adp0.reps ++ [{ repr4 with sourceUrl := sourceUrl }] }
          ({ ms with adpSets := adp1 :: ms.adpSets.tail }, true)
      else (ms, false) -- malformed: roll the stream back to the previous line
    | none => (ms, false)

/-- `#EXTINF` at master level (HLSTree.cpp 978-1001): a single-rendition
playlist; parsing stops (`break`). -/
def applyMasterExtInf (manifestUrl : Str) (ms : MasterState) : MasterState :=
  let repr : CRepresentation := { timescale := 1000000, sourceUrl := manifestUrl }
  { ms with
      adpSets := ms.adpSets ++ [{ streamType := StreamType.video, reps := [repr] }],
      includedStreamType := ms.includedStreamType ||| 2 ^ streamTypeBit StreamType.audio,
      createDummyAudioRepr := true }

/-- The master playlist loop (HLSTree.cpp 806-1023); `none` models the
`return false` on an unsupported session key. -/
def parseMasterLines (rootBaseUrl baseUrl manifestUrl : Str) :
    MasterState → List Str → Option MasterState
  | ms, [] => some ms
  | ms, line :: rest =>
    let tv := parseTagNameValue line
    let tagName := tv.1
    let tagValue := tv.2
    if !ms.isExtM3U then
      parseMasterLines rootBaseUrl baseUrl manifestUrl
        (if tagName = "#EXTM3U".data then { ms with isExtM3U := true } else ms) rest
    else if tagName = "#EXT-X-MEDIA".data then
      parseMasterLines rootBaseUrl baseUrl manifestUrl (applyMediaTag baseUrl ms tagValue) rest
    else if tagName = "#EXT-X-STREAM-INF".data then
      match rest with
      | [] =>
        let r := applyStreamInfTag baseUrl ms tagValue none
        parseMasterLines rootBaseUrl baseUrl manifestUrl r.1 []
      | l2 :: rest2 =>
        let r := applyStreamInfTag baseUrl ms tagValue (some l2)
        if r.2 then parseMasterLines rootBaseUrl baseUrl manifestUrl r.1 rest2
        else parseMasterLines rootBaseUrl baseUrl manifestUrl r.1 (l2 :: rest2)
    else if tagName = "#EXTINF".data then
      some (applyMasterExtInf manifestUrl ms) -- break
    else if tagName = "#EXT-X-SESSION-KEY".data then
      let attribs := parseTagAttributes tagValue
      let r := processEncryption rootBaseUrl attribs ms.enc
      match r.1 with
      | EncryptionType.notSupported => none
      | _ => parseMasterLines rootBaseUrl baseUrl manifestUrl { ms with enc := r.2 } rest
    else
      parseMasterLines rootBaseUrl baseUrl manifestUrl ms rest

/-- Epilogue of `ParseManifest` (HLSTree.cpp 1025-1081): dummy audio
rendition, appending the buffered groups (in map key order), live defaults. -/
def masterEpilogue (ms : MasterState) : Option MasterState :=
  if !ms.isExtM3U then none
  else
    let ms :=
      if ms.createDummyAudioRepr then
        let codec :=
          match ms.adpSets with
          | [] => "aac".data
          | a :: _ =>
            match a.reps with
            | [] => "aac".data
            | r :: _ => getAudioCodecOfRep r
        let repr : CRepresentation :=
          { timescale := 1000000, codecs := addCodecs [] codec, audioChannels := 2,
            includedStream := true }
        let adp : MAdpSet :=
          { streamType := StreamType.audio, containerType := ContainerType.mp4,
            language := "unk".data, reps := [repr] }
        { ms with adpSets := ms.adpSets ++ [adp] }
      else ms
    let extra := (ms.extGroups.map fun g => g.2.adpSets).flatten
    let ms := { ms with adpSets := ms.adpSets ++ extra, extGroups := [] }
    some ms

/-- `CHLSTree::ParseManifest`: parse the master playlist into the initial
period's adaptation sets; `none` = `return false`. -/
def parseManifest (rootBaseUrl baseUrl manifestUrl : Str) (rawLines : List Str) :
    Option MasterState :=
  let lines := rawLines.filter (fun l => l ≠ [])
  match parseMasterLines rootBaseUrl baseUrl manifestUrl {} lines with
  | none => none
  | some ms => masterEpilogue ms

/-! ## AES-128 data-arrival hook (`CHLSTree::OnDataArrived`, HLSTree.cpp 654-749) -/

/-- The external capabilities `OnDataArrived` consumes: the HTTP download of
the key URI (given url and raw header block; `none` = failure), the
decrypter's `decrypt` (returning the rewritten output buffer),
`ivFromSequence` and `RenewLicense`. -/
structure AESOracles where
  download : Str → Str → Option Str := fun _ _ => none
  decrypt : Str → Str → Str → Str → Nat → Bool → Str := fun _ _ _ b _ _ => b
  ivFromSequence : Nat → Str := fun _ => []
  renewLicense : Str → Bool := fun _ => false

/-- Modelled from the spec: `URL::AppendParameters` — append the
`|`-delimited license URL parameters to the key URI. -/
def appendParameters (url params : Str) : Str :=
  if params = [] then url
  else url ++ (if url.any (fun c => c = '?') then '&' :: params else '?' :: params)

/-- `std::string::insert(pos, count, ch)`. -/
def insertFill (buf : Str) (pos count : Nat) (ch : Char) : Str :=
  buf.take pos ++ List.replicate count ch ++ buf.drop pos

/-- `std::string::resize(n)` (pad with NUL / truncate). -/
def resizeStr (buf : Str) (n : Nat) : Str :=
  buf.take n ++ List.replicate (n - buf.length) (Char.ofNat 0)

/-- The KID resolution of the AES path (HLSTree.cpp 678-720): adopt the KID
of a PSSHSet with the same key URI, else GET the key URI (the response body
is the KID); on failure mark `"0"` and retry once after a successful license
renewal. -/
def resolveKID (oracles : AESOracles) (licenseKey : Str) (sets : List PSSHSet)
    (idx : Nat) : List PSSHSet :=
  let pssh := sets.getD idx {}
  if pssh.defaultKID ≠ [] then sets
  else
    match sets.find? (fun e => e.pssh = pssh.pssh && e.defaultKID ≠ []) with
    | some e => sets.set idx { pssh with defaultKID := e.defaultKID }
    | none =>
      let keyParts := splitOnChar '|' licenseKey
      let url :=
        match keyParts with
        | [] => pssh.pssh
        | p0 :: _ => appendParameters pssh.pssh p0
      let headers := keyParts.getD 1 []
      match oracles.download url headers with
      | some data => sets.set idx { pssh with defaultKID := data }
      | none =>
        -- defaultKID (empty) differs from "0": mark "0", maybe renew and retry
        if 5 ≤ keyParts.length && decide (keyParts.getD 4 [] ≠ []) &&
            oracles.renewLicense (keyParts.getD 4 []) then
          match oracles.download url headers with
          | some data => sets.set idx { pssh with defaultKID := data }
          | none => sets.set idx { pssh with defaultKID := "0".data }
        else sets.set idx { pssh with defaultKID := "0".data }

/-- The result state of a handled AES-128 data arrival. -/
structure DataArrivalResult where
  psshSets : List PSSHSet
  iv : Str
  segBuffer : Str
deriving DecidableEq, Repr

/-- `CHLSTree::OnDataArrived`: the AES-128 path (non-zero PSSH index, period
not ENCRYPTED_SUPPORTED); `none` models the delegation to
`AdaptiveTree::OnDataArrived` (external). -/
def onDataArrived (oracles : AESOracles) (licenseKey : Str)
    (encState : EncryptionState) (psshSets : List PSSHSet) (segNum psshSet : Nat)
    (iv : Str) (srcData : Str) (segBuffer : Str) (segBufferSize : Nat)
    (isLastChunk : Bool) : Option DataArrivalResult :=
  if psshSet ≠ 0 && encState ≠ EncryptionState.encryptedSupported then
    if psshSets.length ≤ psshSet then
      -- "Cannot get PSSHSet at position": log and return, nothing touched
      some { psshSets := psshSets, iv := iv, segBuffer := segBuffer }
    else
      let sets := resolveKID oracles licenseKey psshSets psshSet
      let pssh := sets.getD psshSet {}
      if pssh.defaultKID = "0".data then
        some { psshSets := sets, iv := iv,
               segBuffer := insertFill segBuffer segBufferSize srcData.length (Char.ofNat 0) }
      else
        let iv1 :=
          if segBufferSize = 0 then
            if pssh.iv = [] then oracles.ivFromSequence segNum
            else pssh.iv.take 16 ++ List.replicate (16 - pssh.iv.length) (Char.ofNat 0)
          else iv
        let buf := resizeStr segBuffer (segBufferSize + srcData.length)
        let buf2 := oracles.decrypt pssh.defaultKID iv1 srcData buf segBufferSize isLastChunk
        let iv2 := if 16 ≤ srcData.length then srcData.drop (srcData.length - 16) else iv1
        some { psshSets := sets, iv := iv2, segBuffer := buf2 }
  else none

/-! ## Spec-side definitions (for comparison against the embedded code) -/

/-- The duration the spec prescribes for an `EXTINF` tag:
"duration = ceil(extinf_seconds × timescale)" (spec 4.5), over the exact
parsed decimal value. -/
def specExtinfDurationCeil (tagValue : Str) (timescale : Nat) : Nat :=
  let p := toFloatParts tagValue
  (p.1 * timescale + 10 ^ p.2 - 1) / 10 ^ p.2

/-- Whether the playlist contains the `#EXTM3U` tag at all (the child loop
skips every line until it, so "has no #EXTM3U tag" is this predicate). -/
def hasExtM3U (lines : List Str) : Bool :=
  lines.any fun l => decide ((parseTagNameValue l).1 = "#EXTM3U".data)

/-- Whether some `#EXT-X-KEY` line after the `#EXTM3U` tag classifies as an
unsupported encryption method ("declares an unsupported encryption method");
`seen` carries whether `#EXTM3U` was already passed.  The classification of
`ProcessEncryption` does not depend on the running encryption context, so the
empty context is used. -/
def unsupportedKeySeen (rootBaseUrl : Str) : Bool → List Str → Bool
  | _, [] => false
  | seen, l :: rest =>
    let tv := parseTagNameValue l
    if !seen then
      unsupportedKeySeen rootBaseUrl (decide (tv.1 = "#EXTM3U".data)) rest
    else if decide (tv.1 = "#EXT-X-KEY".data) &&
        decide ((processEncryption rootBaseUrl (parseTagAttributes tv.2) {}).1 =
          EncryptionType.notSupported) then
      true
    else
      unsupportedKeySeen rootBaseUrl true rest

/-! ## Concrete scenario inputs (used by the closed theorems) -/

/-- A period whose tracked representation has a child playlist URL. -/
def demoPeriod : CPeriod :=
  { id := 0, rep := { sourceUrl := "http://cdn/a.m3u8".data, timescale := 1000000 } }

/-- A single-period tree pinned at that period. -/
def demoTree : TreeState :=
  { periods := [demoPeriod], curPeriodId := 0 }

/-- The byte-range child playlist of spec scenario S6:
`#EXT-X-BYTERANGE:1000@0` then `#EXT-X-BYTERANGE:1000` (no offset). -/
def s6Lines : List Str :=
  [ "#EXTM3U".data,
    "#EXTINF:1,".data,
    "#EXT-X-BYTERANGE:1000@0".data,
    "seg.ts".data,
    "#EXTINF:1,".data,
    "#EXT-X-BYTERANGE:1000".data,
    "seg.ts".data,
    "#EXT-X-ENDLIST".data ]

/-- The S6 run of `prepareRepresentation`. -/
def s6Run : TreeState × PrepareRepStatus :=
  prepareRep demoTree 0 StreamType.video false "http://cdn".data
    (some ("http://cdn/a.m3u8".data, s6Lines))

/-- A plain two-segment VOD child playlist. -/
def plainLines : List Str :=
  [ "#EXTM3U".data,
    "#EXT-X-PLAYLIST-TYPE:VOD".data,
    "#EXT-X-TARGETDURATION:10".data,
    "#EXTINF:10.0,".data,
    "s0.ts".data,
    "#EXTINF:5.0,".data,
    "s1.ts".data,
    "#EXT-X-ENDLIST".data ]

/-- A tree whose tracked representation is marked downloaded but has an
empty source URL. -/
def downloadedNoUrlRep : CRepresentation :=
  { sourceUrl := [], isDownloaded := true, timescale := 1000000 }

/-- The tree holding `downloadedNoUrlRep`. -/
def downloadedNoUrlTree : TreeState :=
  { periods := [{ id := 0, rep := downloadedNoUrlRep }], curPeriodId := 0 }

/-- Master playlist whose first `EXT-X-STREAM-INF` lacks `BANDWIDTH` and is
followed by further tags. -/
def c7Lines : List Str :=
  [ "#EXTM3U".data,
    "#EXT-X-STREAM-INF:CODECS=\"avc1.64001f\",RESOLUTION=640x360".data,
    "nobw.m3u8".data,
    "#EXT-X-STREAM-INF:BANDWIDTH=500000,CODECS=\"avc1.64001f,mp4a.40.2\"".data,
    "a.m3u8".data ]

/-- The C7 master parse run. -/
def c7Run : Option MasterState :=
  parseManifest "http://x".data "http://x".data "http://x/m.m3u8".data c7Lines

/-- A loop state mid-parse (the `#EXTM3U` gate passed). -/
def demoLoop : LoopState :=
  { tree := demoTree, periodIdx := 0, isExtM3U := true }

/-- A representation with a three-segment window starting at number 3. -/
def demoWindowRep : CRepresentation :=
  { startNumber := 3, timeline := [{ url := "a".data }, { url := "b".data }, { url := "c".data }],
    isWaitForSegment := true, timescale := 1000000 }

/-- Example PSSHSet table entries. -/
def demoPssh1 : PSSHSet := { pssh := "k1".data, usageCount := 2 }

/-- An unused table entry. -/
def demoPssh2 : PSSHSet := { pssh := "k2".data, usageCount := 0 }

/-- A PSSHSet table: sentinel, a used entry, an unused entry. -/
def demoSets : List PSSHSet := [{}, demoPssh1, demoPssh2]

/-- A candidate equal (per the comparator) to the unused entry. -/
def demoCand : PSSHSet := { pssh := "k2".data, defaultKID := "kid".data }

/-- The relation between the loop's `prepareStatus` and the ghost Widevine
trace: DRMCHANGED exactly when some `EXT-X-KEY` Widevine intern left a usage
count of 1 (a fresh PSSHSet), DRMUNCHANGED exactly when Widevine keys were
interned but none fresh, OK exactly when no Widevine key was seen; the loop
itself never yields FAILURE (that is the early return). -/
def drmInv (ls : LoopState) : Prop :=
  (ls.prepareStatus = PrepareRepStatus.drmChanged ↔ 1 ∈ ls.wvTrace) ∧
  (ls.prepareStatus = PrepareRepStatus.drmUnchanged ↔ (ls.wvTrace ≠ [] ∧ 1 ∉ ls.wvTrace)) ∧
  (ls.prepareStatus = PrepareRepStatus.ok ↔ ls.wvTrace = [])

end HLSTree

/-! # Theorems -/

namespace HLSTree

/-! ## Shared helper lemmas -/

theorem splitFirst_not_mem {ch : Char} {s : Str} (h : ch ∉ s) :
    splitFirst ch s = (s, none) := by
  induction s with
  | nil => rfl
  | cons c cs ih =>
    have hc : ¬ c = ch := fun hc => h (hc ▸ List.mem_cons_self c cs)
    have hcs : ch ∉ cs := fun hm => h (List.mem_cons_of_mem c hm)
    simp [splitFirst, hc, ih hcs]

theorem splitFirst_append_cons (ch : Char) (pre w : Str) (h : ch ∉ pre) :
    splitFirst ch (pre ++ ch :: w) = (pre, some w) := by
  induction pre with
  | nil => simp [splitFirst]
  | cons c cs ih =>
    have hc : ¬ c = ch := fun hc => h (hc ▸ List.mem_cons_self c cs)
    have hcs : ch ∉ cs := fun hm => h (List.mem_cons_of_mem c hm)
    simp [splitFirst, hc, ih hcs]

theorem parseTagNameValue_tag (t0 v : Str) (h : ':' ∉ t0) :
    parseTagNameValue (('#' :: t0) ++ ':' :: v) = ('#' :: t0, v) := by
  have hmem : ':' ∉ '#' :: t0 := by
    intro hm
    rcases List.mem_cons.mp hm with h1 | h2
    · exact absurd h1 (by decide)
    · exact h h2
  have hstep : parseTagNameValue (('#' :: t0) ++ ':' :: v) =
      ((splitFirst ':' (('#' :: t0) ++ ':' :: v)).1,
        ((splitFirst ':' (('#' :: t0) ++ ':' :: v)).2).getD []) := rfl
  rw [hstep, splitFirst_append_cons ':' ('#' :: t0) v hmem]
  rfl

/-! ## C10 -/

/-- C10: on the AES-128 path of `OnDataArrived` (non-zero PSSH index and
current period not ENCRYPTED_SUPPORTED), a PSSH index at or beyond the
period's PSSHSet count returns early: no bytes are appended to the segment
buffer, no PSSHSet is modified, and the IV is untouched. -/
theorem C10_aes_out_of_range_pssh_unchanged
    (oracles : AESOracles) (licenseKey : Str) (encState : EncryptionState)
    (psshSets : List PSSHSet) (segNum psshSet : Nat) (iv srcData segBuffer : Str)
    (segBufferSize : Nat) (isLastChunk : Bool)
    (hps : psshSet ≠ 0) (henc : encState ≠ EncryptionState.encryptedSupported)
    (hge : psshSets.length ≤ psshSet) :
    onDataArrived oracles licenseKey encState psshSets segNum psshSet iv srcData
      segBuffer segBufferSize isLastChunk =
      some { psshSets := psshSets, iv := iv, segBuffer := segBuffer } := by
  simp [onDataArrived, hps, henc, hge]

/-- Witness for C10 at a concrete out-of-range index. -/
theorem C10_aes_out_of_range_pssh_unchanged_witness :
    onDataArrived {} [] EncryptionState.encrypted [{}] 0 3 [] [] [] 0 false =
      some { psshSets := [{}], iv := [], segBuffer := [] } :=
  C10_aes_out_of_range_pssh_unchanged {} [] EncryptionState.encrypted [{}] 0 3 [] [] []
    0 false (by decide) (by decide) (by decide)

/-! ## C8 -/

theorem foldl_applyTargetDuration_min (ts : List Nat) :
    ∀ interval, (∀ t ∈ ts, t * 1500 < 2 ^ 32) →
      List.foldl applyTargetDuration interval ts =
        ts.foldl (fun a t => min a (t * 1500)) interval := by
  induction ts with
  | nil => intro interval _; rfl
  | cons t ts ih =>
    intro interval hb
    have ht : t * 1500 < 2 ^ 32 := hb t (List.mem_cons_self t ts)
    have hstep : applyTargetDuration interval t = min interval (t * 1500) := by
      simp only [applyTargetDuration, Nat.mod_eq_of_lt ht]
      split <;> omega
    simp only [List.foldl_cons, hstep]
    exact ih (min interval (t * 1500)) fun x hx => hb x (List.mem_cons_of_mem t hx)

/-- C8: processing `EXT-X-TARGETDURATION` sets the update interval to the
minimum of its previous value and `target × 1500` (within `uint32_t` range):
it never increases, decreases exactly when `target × 1500` is below the
current value, and over any sequence of tags the result is the running
minimum; moreover a `#EXT-X-TARGETDURATION` line in the child loop applies
exactly this step to the tree. -/
theorem C8_target_duration_clamps_downward (interval target : Nat) (ts : List Nat) :
    (target * 1500 < 2 ^ 32 →
      applyTargetDuration interval target = min interval (target * 1500)) ∧
    applyTargetDuration interval target ≤ interval ∧
    (target * 1500 < 2 ^ 32 →
      (applyTargetDuration interval target < interval ↔ target * 1500 < interval)) ∧
    ((∀ t ∈ ts, t * 1500 < 2 ^ 32) →
      List.foldl applyTargetDuration interval ts =
        ts.foldl (fun a t => min a (t * 1500)) interval) ∧
    (∀ (u : Bool) (st : StreamType) (rb bu v : Str) (ls : LoopState),
      ls.isExtM3U = true →
      processLine u st rb bu ls ("#EXT-X-TARGETDURATION".data ++ ':' :: v) =
        Except.ok { ls with tree := { ls.tree with
          updateInterval := applyTargetDuration ls.tree.updateInterval (toUint32 v) } }) := by
  refine ⟨?_, ?_, ?_, ?_, ?_⟩
  · intro h
    simp only [applyTargetDuration, Nat.mod_eq_of_lt h]
    split <;> omega
  · simp only [applyTargetDuration]
    split <;> omega
  · intro h
    simp only [applyTargetDuration, Nat.mod_eq_of_lt h]
    split <;> omega
  · intro hb
    exact foldl_applyTargetDuration_min ts interval hb
  · intro u st rb bu v ls hm3u
    have htv : parseTagNameValue ("#EXT-X-TARGETDURATION".data ++ ':' :: v) =
        ("#EXT-X-TARGETDURATION".data, v) := by
      rw [show ("#EXT-X-TARGETDURATION".data : Str) =
        '#' :: "EXT-X-TARGETDURATION".data from by decide]
      exact parseTagNameValue_tag "EXT-X-TARGETDURATION".data v (by decide)
    simp only [processLine, htv, hm3u]
    simp

/-- Witness for C8 at concrete values. -/
theorem C8_target_duration_clamps_downward_witness :
    applyTargetDuration 100000 10 = min 100000 (10 * 1500) ∧
    List.foldl applyTargetDuration 100000 [10, 4] =
      [10, 4].foldl (fun a t => min a (t * 1500)) 100000 :=
  ⟨(C8_target_duration_clamps_downward 100000 10 []).1 (by decide),
   (C8_target_duration_clamps_downward 100000 10 [10, 4]).2.2.2.1 (by decide)⟩

/-! ## C2 -/

/-- C2: evaluation of the embedded child parser on the S6 byte-range
playlist (`#EXT-X-BYTERANGE:1000@0` then `#EXT-X-BYTERANGE:1000`): the code
computes `range_end = range_begin + len` (no `− 1`), yielding segment 0
`[0..1000]` and segment 1 `[1001..2001]`, where the claim (and the HLS
byte-range semantics, as the `EXT-X-MAP` branch of the same file applies)
prescribes `end = begin + len − 1`, i.e. `[0..999]` and `[1000..1999]`. -/
theorem C2_byterange_end_off_by_one :
    ((s6Run.1.periods.headD {}).rep.timeline.map fun s => (s.rangeBegin, s.rangeEnd)) =
      [(0, 1000), (1001, 2001)] ∧
    s6Run.2 = PrepareRepStatus.ok ∧
    (s6Run.1.periods.headD {}).rep.url = "http://cdn/a.m3u8/seg.ts".data ∧
    ((s6Run.1.periods.headD {}).rep.timeline.map fun s => s.url) = [[], []] := by
  decide

end HLSTree

namespace HLSTree

/-! ## C5 -/

/-- C5 (counterexample): the claim prescribes
`duration = ceil(d × timescale)`, but the code truncates
(`static_cast<uint64_t>(ToFloat(tagValue) * timescale)`): for
`#EXTINF:0.0000005` at timescale 1000000 the exact product is 1/2, the code
stores 0 ticks while the claim demands ceil = 1. -/
theorem C5_extinf_ceil_counterexample :
    extinfDuration "0.0000005,".data 1000000 = 0 ∧
    specExtinfDurationCeil "0.0000005,".data 1000000 = 1 ∧
    processLine false StreamType.video [] [] demoLoop "#EXTINF:0.0000005,".data =
      Except.ok { demoLoop with newSegment := some { url := [], startPTS := 0, duration := 0, psshSet := 0 }, curSegStartPts := 0 } := by
  refine ⟨by decide, by decide, ?_⟩
  rfl

/-- C5 (amended): an `EXTINF` tag creates the pending segment with
`start_PTS` equal to the PTS accumulator, `pssh_set` equal to the current
PSSH index, and duration equal to the TRUNCATION (floor) of
`d × timescale` ticks — not the ceiling — and advances the accumulator by
that duration; the floor characterization `D·10^k ≤ m·T < (D+1)·10^k` pins
the truncated product down. -/
theorem C5_extinf_truncated_duration
    (u : Bool) (st : StreamType) (rb bu v : Str) (ls : LoopState)
    (hm3u : ls.isExtM3U = true) :
    processLine u st rb bu ls ("#EXTINF".data ++ ':' :: v) =
      Except.ok { ls with newSegment := some { url := [], startPTS := ls.curSegStartPts, duration := extinfDuration v ls.curRep.timescale, psshSet := ls.psshSetPos }, curSegStartPts := ls.curSegStartPts + extinfDuration v ls.curRep.timescale } ∧
    extinfDuration v ls.curRep.timescale * 10 ^ (toFloatParts v).2 ≤
      (toFloatParts v).1 * ls.curRep.timescale ∧
    (toFloatParts v).1 * ls.curRep.timescale <
      (extinfDuration v ls.curRep.timescale + 1) * 10 ^ (toFloatParts v).2 := by
  refine ⟨?_, ?_, ?_⟩
  · have htv : parseTagNameValue ("#EXTINF".data ++ ':' :: v) = ("#EXTINF".data, v) := by
      rw [show ("#EXTINF".data : Str) = '#' :: "EXTINF".data from by decide]
      exact parseTagNameValue_tag "EXTINF".data v (by decide)
    simp only [processLine, htv, hm3u]
    simp
  · simp only [extinfDuration]
    exact Nat.div_mul_le_self _ _
  · have h10 : 0 < 10 ^ (toFloatParts v).2 := Nat.pos_pow_of_pos _ (by decide)
    simp only [extinfDuration]
    rw [Nat.add_mul, one_mul]
    calc (toFloatParts v).1 * ls.curRep.timescale
        = (toFloatParts v).1 * ls.curRep.timescale / 10 ^ (toFloatParts v).2 *
            10 ^ (toFloatParts v).2 +
          (toFloatParts v).1 * ls.curRep.timescale % 10 ^ (toFloatParts v).2 :=
        (Nat.div_add_mod' _ _).symm
    _ < (toFloatParts v).1 * ls.curRep.timescale / 10 ^ (toFloatParts v).2 *
            10 ^ (toFloatParts v).2 + 10 ^ (toFloatParts v).2 :=
        Nat.add_lt_add_left (Nat.mod_lt _ h10) _

/-- Witness for the amended C5 at `#EXTINF:10.5,`. -/
theorem C5_extinf_truncated_duration_witness :
    processLine false StreamType.video [] [] demoLoop ("#EXTINF".data ++ ':' :: "10.5,".data) =
      Except.ok { demoLoop with newSegment := some { url := [], startPTS := 0, duration := 10500000, psshSet := 0 }, curSegStartPts := 10500000 } :=
  ((C5_extinf_truncated_duration false StreamType.video [] [] "10.5,".data demoLoop
    rfl).1).trans (by rfl)

/-! ## C6 -/

/-- C6: after an `update=true` prepare, the consumer cursor is nulled when
the prior segment number is 0, below the new start number, or the no-number
sentinel; it is clamped to the last window segment when at or beyond
`start_number + count`; the waiting flag is cleared when a next segment
exists (or the current period is not the last); and `finishPrepare` applies
exactly this transformation to the entry representation. -/
theorem C6_update_repositions_cursor
    (num : Nat) (r : CRepresentation) (curNotLast : Bool) :
    ((num = 0 ∨ num < r.startNumber ∨ num = SEGMENT_NO_NUMBER) →
      (updateWindow num r).currentSegment = none) ∧
    (num ≠ 0 → num ≠ SEGMENT_NO_NUMBER → r.startNumber ≤ num →
      r.startNumber + r.timeline.length ≤ num → 0 < r.timeline.length →
      (updateWindow num r).currentSegment = some (r.timeline.length - 1)) ∧
    (r.isWaitForSegment = true →
      (nextSegmentExists r.currentSegment r.timeline.length || curNotLast) = true →
      (applyWaitFlag curNotLast r).isWaitForSegment = false) ∧
    (∀ (t : TreeState) (p : CPeriod) (status : PrepareRepStatus),
      t.periods = [p] →
      (finishPrepare t none true p.id num status).1.periods =
        [{ p with rep := applyWaitFlag (decide (t.curPeriodId ≠ p.id)) (updateWindow num p.rep) }]) := by
  refine ⟨?_, ?_, ?_, ?_⟩
  · intro h
    simp only [updateWindow]
    rcases h with h | h | h <;> simp [h]
  · intro h0 hs hge hbeyond hpos
    have hlt : ¬ (num < r.startNumber) := by omega
    have hcl : r.startNumber + r.timeline.length ≤ num := hbeyond
    have hidx : r.startNumber + r.timeline.length - 1 - r.startNumber =
        r.timeline.length - 1 := by omega
    have hget : ∃ a, r.timeline.get? (r.timeline.length - 1) = some a := by
      rcases List.get?_eq_get (l := r.timeline) (n := r.timeline.length - 1) (by omega) with h
      exact ⟨_, h⟩
    rcases hget with ⟨a, ha⟩
    simp only [updateWindow, getSegment]
    rw [if_neg (by simp [h0, hlt, hs]), if_pos hcl, hidx, ha]
  · intro hw hcond
    simp [applyWaitFlag, hw, hcond]
  · intro t p status ht
    simp [finishPrepare, ht, modifyRepById]

/-- Witness for C6: number 7 beyond a 3-wide window starting at 3 clamps to
index 2; the waiting flag clears when a successor period exists. -/
theorem C6_update_repositions_cursor_witness :
    (updateWindow 7 demoWindowRep).currentSegment = some 2 ∧
    (applyWaitFlag true demoWindowRep).isWaitForSegment = false :=
  ⟨((C6_update_repositions_cursor 7 demoWindowRep true).2.1 (by decide) (by decide)
      (by decide) (by decide) (by decide)).trans (by decide),
   (C6_update_repositions_cursor 7 demoWindowRep true).2.2.1 (by decide) (by decide)⟩

end HLSTree

namespace HLSTree

/-! ## C4 -/

theorem findIdx?_none_of_all {α : Type} (p : α → Bool) (l : List α) (i : Nat)
    (h : ∀ e ∈ l, p e = false) : List.findIdx? p l i = none := by
  induction l generalizing i with
  | nil => rfl
  | cons a t ih =>
    rw [List.findIdx?_cons]
    have ht := ih (i + 1) fun e he => h e (List.mem_cons_of_mem a he)
    simp only [h a (List.mem_cons_self a t), Bool.false_eq_true, if_false]
    exact ht

theorem findIdx?_first {α : Type} (p : α → Bool) (d : α) :
    ∀ (l : List α) (j i : Nat), j < l.length → p (l.getD j d) = true →
      (∀ k, k < j → p (l.getD k d) = false) →
      List.findIdx? p l i = some (i + j) := by
  intro l
  induction l with
  | nil =>
    intro j i hj
    simp at hj
  | cons a t ih =>
    intro j i hj hp hk
    rw [List.findIdx?_cons]
    cases j with
    | zero =>
      simp only [List.getD_cons_zero] at hp
      simp [hp]
    | succ j' =>
      have ha : p a = false := by
        have := hk 0 (Nat.succ_pos j')
        simpa using this
      have ht := ih j' (i + 1) (by simpa using hj) (by simpa using hp)
        (fun k hk' => by simpa using hk (k + 1) (by omega))
      simp only [ha, Bool.false_eq_true, if_false, ht]
      congr 1
      omega

theorem getD_drop_one {α : Type} (l : List α) (d : α) (j : Nat) :
    (l.drop 1).getD j d = l.getD (j + 1) d := by
  cases l with
  | nil => simp
  | cons a t => simp [List.getD]

/-- C4: `InsertPSSHSet` with a null candidate increments the sentinel's
usage count and returns 0; with a candidate it searches from index 1 onward
for the first comparator-equal entry — replacing that entry's fields with
the candidate when its usage count is 0, keeping it otherwise — appends the
candidate when no equal entry exists, and in each case increments the
resulting entry's usage count and returns its index. -/
theorem C4_insert_pssh_set (sets : List PSSHSet) (c : PSSHSet) :
    (∀ h t, sets = h :: t →
      insertPSSHSet sets none = ({ h with usageCount := h.usageCount + 1 } :: t, 0)) ∧
    ((∀ e ∈ sets.drop 1, psshEq e c = false) →
      insertPSSHSet sets (some c) =
        (sets ++ [{ c with usageCount := c.usageCount + 1 }], sets.length % 2 ^ 16)) ∧
    (∀ i, 1 ≤ i → i < sets.length →
      psshEq (sets.getD i {}) c = true →
      (∀ k, 1 ≤ k → k < i → psshEq (sets.getD k {}) c = false) →
      ((sets.getD i {}).usageCount = 0 →
        insertPSSHSet sets (some c) =
          (sets.set i { c with usageCount := c.usageCount + 1 }, i % 2 ^ 16)) ∧
      ((sets.getD i {}).usageCount ≠ 0 →
        insertPSSHSet sets (some c) =
          (sets.set i { sets.getD i {} with usageCount := (sets.getD i {}).usageCount + 1 },
            i % 2 ^ 16))) := by
  refine ⟨?_, ?_, ?_⟩
  · intro h t hs
    subst hs
    simp [insertPSSHSet, bumpUsage, PSSHSET_POS_DEFAULT, List.set]
  · intro hall
    have hfind : List.findIdx? (fun e => psshEq e c) (sets.drop 1) 0 = none :=
      findIdx?_none_of_all _ _ _ fun e he => hall e he
    simp only [insertPSSHSet, hfind]
  · intro i h1 hlen hp hk
    have hdlen : i - 1 < (sets.drop 1).length := by
      simp only [List.length_drop]
      omega
    have hdp : psshEq ((sets.drop 1).getD (i - 1) {}) c = true := by
      rw [getD_drop_one]
      have : i - 1 + 1 = i := by omega
      rw [this]
      exact hp
    have hdk : ∀ k, k < i - 1 → psshEq ((sets.drop 1).getD k {}) c = false := by
      intro k hki
      rw [getD_drop_one]
      exact hk (k + 1) (by omega) (by omega)
    have hfind : List.findIdx? (fun e => psshEq e c) (sets.drop 1) 0 = some (i - 1) := by
      have := findIdx?_first (fun e => psshEq e c) {} (sets.drop 1) (i - 1) 0 hdlen hdp hdk
      simpa using this
    have hi1 : i - 1 + 1 = i := by omega
    have hget : sets.get? i = some (sets.getD i {}) := by
      have h := List.get?_eq_get (l := sets) (n := i) hlen
      rw [h]
      congr 1
      simp [List.getD_eq_getElem?_getD, List.getElem?_eq_getElem hlen]
    constructor
    · intro hu
      simp only [insertPSSHSet, hfind, hi1, hget]
      simp only [if_pos hu]
    · intro hu
      simp only [insertPSSHSet, hfind, hi1, hget]
      simp only [if_neg hu]

/-- Witness for C4: the candidate matches the unused entry at index 2 and
replaces it; the null candidate bumps the sentinel. -/
theorem C4_insert_pssh_set_witness :
    insertPSSHSet demoSets (some demoCand) =
      (demoSets.set 2 { demoCand with usageCount := 1 }, 2) ∧
    insertPSSHSet demoSets none =
      ({ (({} : PSSHSet)) with usageCount := 1 } :: [demoPssh1, demoPssh2], 0) :=
  ⟨(((C4_insert_pssh_set demoSets demoCand).2.2 2 (by decide) (by decide) (by decide)
      (by decide)).1 (by decide)).trans (by decide),
   ((C4_insert_pssh_set demoSets demoCand).1 {} [demoPssh1, demoPssh2] (by decide)).trans
      (by decide)⟩

end HLSTree

namespace HLSTree

/-! ## C7 -/

/-- C7 (counterexample): a master playlist whose first `EXT-X-STREAM-INF`
lacks `BANDWIDTH` does NOT make `open()` fail: `ParseManifest` succeeds,
the malformed tag is skipped with a logged error, and the following
`EXT-X-STREAM-INF` is still parsed into the video adaptation set. -/
theorem C7_missing_bandwidth_counterexample :
    c7Run.isSome = true ∧
    (((c7Run.getD {}).adpSets.headD {}).reps.map fun r => r.sourceUrl) =
      ["http://x/a.m3u8".data] ∧
    (((c7Run.getD {}).adpSets.headD {}).reps.map fun r => r.bandwidth) = [500000] := by
  refine ⟨by decide, by decide, by decide⟩

/-- C7 (amended): an `EXT-X-STREAM-INF` without `BANDWIDTH` is skipped
(logged, non-fatal): the master loop's state is unchanged by the tag and
parsing continues with the remaining lines exactly as if the tag were
absent. -/
theorem C7_missing_bandwidth_skipped
    (rb bu mu tagValue : Str) (ms : MasterState) (rest : List Str)
    (hbw : mapContains (parseTagAttributes tagValue) "BANDWIDTH".data = false) :
    parseMasterLines rb bu mu ms (("#EXT-X-STREAM-INF".data ++ ':' :: tagValue) :: rest) =
      parseMasterLines rb bu mu ms rest := by
  have htv : parseTagNameValue ("#EXT-X-STREAM-INF".data ++ ':' :: tagValue) =
      ("#EXT-X-STREAM-INF".data, tagValue) := by
    rw [show ("#EXT-X-STREAM-INF".data : Str) = '#' :: "EXT-X-STREAM-INF".data from by decide]
    exact parseTagNameValue_tag _ _ (by decide)
  have hstep : ∀ nl, applyStreamInfTag bu ms tagValue nl = (ms, false) := by
    intro nl
    simp [applyStreamInfTag, hbw]
  cases hM3U : ms.isExtM3U with
  | false =>
    rw [parseMasterLines.eq_def]
    simp only [htv, hM3U]
    simp
  | true =>
    cases rest with
    | nil =>
      rw [parseMasterLines.eq_def]
      simp only [htv, hM3U]
      simp [hstep]
    | cons l2 rest2 =>
      rw [parseMasterLines.eq_def]
      simp only [htv, hM3U]
      simp [hstep]

/-- Witness for the amended C7. -/
theorem C7_missing_bandwidth_skipped_witness :
    parseMasterLines "http://x".data "http://x".data "http://x/m.m3u8".data
      { isExtM3U := true }
      [("#EXT-X-STREAM-INF".data ++ ':' :: "CODECS=\"avc1\"".data)] =
      some { isExtM3U := true } :=
  (C7_missing_bandwidth_skipped "http://x".data "http://x".data "http://x/m.m3u8".data
    "CODECS=\"avc1\"".data { isExtM3U := true } [] (by decide)).trans (by rfl)

end HLSTree

namespace HLSTree

/-! ## C1 -/

theorem purgeAux_kept (curId baseline : Nat) :
    ∀ (l acc : List CPeriod) (lost : Option CPeriod),
      (purgePeriodsAux curId baseline l acc lost).1 =
        acc.reverse ++ l.filter (fun p => !decide (p.sequence < baseline)) := by
  intro l
  induction l with
  | nil =>
    intro acc lost
    simp [purgePeriodsAux]
  | cons p t ih =>
    intro acc lost
    by_cases hseq : p.sequence < baseline
    · by_cases hid : p.id ≠ curId
      · simp [purgePeriodsAux, hseq, hid, ih]
      · simp [purgePeriodsAux, hseq, hid, ih]
    · simp [purgePeriodsAux, hseq, ih]

theorem purgeAux_lost_unchanged (curId baseline : Nat) :
    ∀ (l acc : List CPeriod) (lost : Option CPeriod),
      (∀ q ∈ l, ¬(q.sequence < baseline ∧ q.id = curId)) →
      (purgePeriodsAux curId baseline l acc lost).2 = lost := by
  intro l
  induction l with
  | nil =>
    intro acc lost _
    simp [purgePeriodsAux]
  | cons p t ih =>
    intro acc lost hall
    have htail : ∀ q ∈ t, ¬(q.sequence < baseline ∧ q.id = curId) :=
      fun q hq => hall q (List.mem_cons_of_mem p hq)
    by_cases hseq : p.sequence < baseline
    · have hid : p.id ≠ curId := fun hc => hall p (List.mem_cons_self p t) ⟨hseq, hc⟩
      simp [purgePeriodsAux, hseq, hid, ih _ _ htail]
    · simp [purgePeriodsAux, hseq, ih _ _ htail]

theorem purgeAux_lost_nodup (curId baseline : Nat) :
    ∀ (l acc : List CPeriod) (lost : Option CPeriod),
      (l.map CPeriod.id).Nodup →
      (purgePeriodsAux curId baseline l acc lost).2 =
        (match l.find? (fun p => decide (p.sequence < baseline) && (p.id == curId)) with
          | some p => some p
          | none => lost) := by
  intro l
  induction l with
  | nil =>
    intro acc lost _
    simp [purgePeriodsAux]
  | cons p t ih =>
    intro acc lost hnd
    have hndt : (t.map CPeriod.id).Nodup := by
      simpa using (List.nodup_cons.mp (by simpa using hnd)).2
    by_cases hseq : p.sequence < baseline
    · by_cases hid : p.id = curId
      · have hnomem : p.id ∉ t.map CPeriod.id :=
          (List.nodup_cons.mp (by simpa using hnd)).1
        have htail : ∀ q ∈ t, ¬(q.sequence < baseline ∧ q.id = curId) := by
          intro q hq hcontra
          exact hnomem (by
            rw [hid, ← hcontra.2]
            exact List.mem_map_of_mem CPeriod.id hq)
        have hrec := purgeAux_lost_unchanged curId baseline t acc (some p) htail
        have hfind : List.find? (fun p => decide (p.sequence < baseline) && (p.id == curId))
            (p :: t) = some p := by
          rw [List.find?_cons]
          simp [hseq, hid]
        simp [purgePeriodsAux, hseq, hid, hrec, hfind]
      · have hbeq : (p.id == curId) = false := by
          simpa using hid
        have hfind : List.find? (fun q => decide (q.sequence < baseline) && (q.id == curId))
            (p :: t) = List.find? (fun q => decide (q.sequence < baseline) && (q.id == curId)) t := by
          rw [List.find?_cons]
          simp [hbeq]
        simp [purgePeriodsAux, hseq, hid, ih _ _ hndt, hfind]
    · have hfind : List.find? (fun q => decide (q.sequence < baseline) && (q.id == curId))
          (p :: t) = List.find? (fun q => decide (q.sequence < baseline) && (q.id == curId)) t := by
        rw [List.find?_cons]
        simp [hseq]
      simp [purgePeriodsAux, hseq, ih _ _ hndt, hfind]

/-- C1: on an `EXT-X-DISCONTINUITY-SEQUENCE` whose baseline exceeds existing
sequences, the purge loop removes exactly the periods with sequence below
the baseline; the pinned current period is detached into `periodLost`
instead of erased; the discontinuity-sequence handler (update path) realizes
exactly this on the tree; and when parsing completes, the detached period is
reinserted at index 0 of the period list. -/
theorem C1_discont_sequence_purge
    (periods : List CPeriod) (curId baseline : Nat)
    (hnodup : (periods.map CPeriod.id).Nodup) :
    (purgePeriods periods curId baseline).1 =
      periods.filter (fun p => !decide (p.sequence < baseline)) ∧
    (purgePeriods periods curId baseline).2 =
      periods.find? (fun p => decide (p.sequence < baseline) && (p.id == curId)) ∧
    (∀ (ls : LoopState) (v : Str), ls.periodLost = none →
      (ls.tree.periods.map CPeriod.id).Nodup →
      (applyDiscontSeqTag true ls v).tree.periods =
        ls.tree.periods.filter (fun p => !decide (p.sequence < toUint32 v)) ∧
      (applyDiscontSeqTag true ls v).periodLost =
        ls.tree.periods.find? (fun p => decide (p.sequence < toUint32 v) &&
          (p.id == ls.tree.curPeriodId))) ∧
    (∀ (t : TreeState) (lostP : CPeriod) (eid num : Nat) (st : PrepareRepStatus),
      (finishPrepare t (some lostP) false eid num st).1.periods = lostP :: t.periods) := by
  refine ⟨?_, ?_, ?_, ?_⟩
  · simpa using purgeAux_kept curId baseline periods [] none
  · have h := purgeAux_lost_nodup curId baseline periods [] none hnodup
    rw [purgePeriods, h]
    cases periods.find? (fun p => decide (p.sequence < baseline) && (p.id == curId)) <;> rfl
  · intro ls v hlost hnd
    have hkept := purgeAux_kept ls.tree.curPeriodId (toUint32 v) ls.tree.periods [] none
    have hlost2 := purgeAux_lost_nodup ls.tree.curPeriodId (toUint32 v) ls.tree.periods [] none hnd
    constructor
    · simp only [applyDiscontSeqTag, Bool.not_true, Bool.false_and, Bool.false_eq_true,
        if_false, purgePeriods]
      simpa using hkept
    · simp only [applyDiscontSeqTag, Bool.not_true, Bool.false_and, Bool.false_eq_true,
        if_false, purgePeriods, hlost]
      rw [hlost2]
      cases ls.tree.periods.find? (fun p => decide (p.sequence < toUint32 v) &&
        (p.id == ls.tree.curPeriodId)) <;> rfl
  · intro t lostP eid num st
    simp [finishPrepare]

/-- Witness for C1: baseline 4 removes the period with sequence 2, detaches
the pinned period with sequence 3, keeps the one with sequence 5; the
reinsertion puts the detached period at index 0. -/
theorem C1_discont_sequence_purge_witness :
    (purgePeriods [{ id := 0, sequence := 3 }, { id := 1, sequence := 5 },
        { id := 2, sequence := 2 }] 0 4).1 = [{ id := 1, sequence := 5 }] ∧
    (purgePeriods [{ id := 0, sequence := 3 }, { id := 1, sequence := 5 },
        { id := 2, sequence := 2 }] 0 4).2 = some { id := 0, sequence := 3 } :=
  ⟨((C1_discont_sequence_purge [{ id := 0, sequence := 3 }, { id := 1, sequence := 5 },
      { id := 2, sequence := 2 }] 0 4 (by decide)).1).trans (by decide),
   ((C1_discont_sequence_purge [{ id := 0, sequence := 3 }, { id := 1, sequence := 5 },
      { id := 2, sequence := 2 }] 0 4 (by decide)).2.1).trans (by decide)⟩

end HLSTree

namespace HLSTree

/-! ## C9: helper lemmas on the attribute scanner -/

theorem scanAttrValue_even_plain (v : Str) :
    ∀ (w : Str) (q : Nat), q % 2 = 0 → (∀ c ∈ v, c ≠ ',' ∧ c ≠ '"') →
      scanAttrValue (v ++ w) q =
        ((scanAttrValue w q).1 + v.length, (scanAttrValue w q).2) := by
  induction v with
  | nil => intro w q _ _; simp
  | cons c t ih =>
    intro w q hq hv
    have hc := hv c (List.mem_cons_self c t)
    have ht : ∀ x ∈ t, x ≠ ',' ∧ x ≠ '"' := fun x hx => hv x (List.mem_cons_of_mem c hx)
    simp only [List.cons_append, scanAttrValue, hq]
    rw [if_neg (by simp [hc.1])]
    rw [if_neg (by simp [hc.2])]
    simp only [List.append_eq]
    rw [ih w q hq ht]
    simp [List.length_cons, Nat.add_assoc]

theorem scanAttrValue_odd_pass (v : Str) :
    ∀ (w : Str) (q : Nat), q % 2 = 1 → (∀ c ∈ v, c ≠ '"') →
      scanAttrValue (v ++ w) q =
        ((scanAttrValue w q).1 + v.length, (scanAttrValue w q).2) := by
  induction v with
  | nil => intro w q _ _; simp
  | cons c t ih =>
    intro w q hq hv
    have hc := hv c (List.mem_cons_self c t)
    have ht : ∀ x ∈ t, x ≠ '"' := fun x hx => hv x (List.mem_cons_of_mem c hx)
    simp only [List.cons_append, scanAttrValue]
    rw [if_neg (by simp [hq])]
    rw [if_neg (by simp [hc])]
    simp only [List.append_eq]
    rw [ih w q hq ht]
    simp [List.length_cons, Nat.add_assoc]

theorem scanAttrValue_comma (rest : Str) (q : Nat) (hq : q % 2 = 0) :
    scanAttrValue (',' :: rest) q = (0, q) := by
  simp [scanAttrValue, hq]

theorem scanAttrValue_quoted (v w : Str) (hv : ∀ c ∈ v, c ≠ '"')
    (hw : w = [] ∨ ∃ r, w = ',' :: r) :
    scanAttrValue ('"' :: v ++ '"' :: w) 0 = (v.length + 2, 2) := by
  have h1 : scanAttrValue ('"' :: v ++ '"' :: w) 0 =
      (1 + (scanAttrValue (v ++ '"' :: w) 1).1,
        (scanAttrValue (v ++ '"' :: w) 1).2) := by
    simp only [List.cons_append, scanAttrValue]
    rw [if_neg (by simp)]
    simp [List.append_eq, Nat.add_comm]
  have h2 : scanAttrValue (v ++ '"' :: w) 1 =
      ((scanAttrValue ('"' :: w) 1).1 + v.length, (scanAttrValue ('"' :: w) 1).2) :=
    scanAttrValue_odd_pass v ('"' :: w) 1 (by decide) hv
  have h3 : scanAttrValue ('"' :: w) 1 = (1 + (scanAttrValue w 2).1, (scanAttrValue w 2).2) := by
    simp only [scanAttrValue]
    rw [if_neg (by simp)]
    simp [Nat.add_comm]
  have h4 : scanAttrValue w 2 = (0, 2) := by
    rcases hw with hw | ⟨r, hw⟩
    · subst hw; rfl
    · subst hw; exact scanAttrValue_comma r 2 (by decide)
  rw [h1, h2, h3, h4]
  simp
  omega

theorem scanAttrValue_plain_end (v : Str) (hv : ∀ c ∈ v, c ≠ ',' ∧ c ≠ '"') :
    scanAttrValue v 0 = (v.length, 0) := by
  have := scanAttrValue_even_plain v [] 0 (by decide) hv
  simpa [scanAttrValue] using this

theorem scanAttrValue_plain_comma (v rest : Str) (hv : ∀ c ∈ v, c ≠ ',' ∧ c ≠ '"') :
    scanAttrValue (v ++ ',' :: rest) 0 = (v.length, 0) := by
  rw [scanAttrValue_even_plain v (',' :: rest) 0 (by decide) hv,
    scanAttrValue_comma rest 0 (by decide)]
  simp

theorem findIdx?_eq_char (n w : Str) (h : '=' ∉ n) :
    ∀ i, List.findIdx? (fun c => c = '=') (n ++ '=' :: w) i = some (i + n.length) := by
  induction n with
  | nil =>
    intro i
    rw [List.nil_append, List.findIdx?_cons]
    simp
  | cons c t ih =>
    intro i
    have hc : ¬ (c = '=') := fun hc => h (hc ▸ List.mem_cons_self c t)
    have ht : '=' ∉ t := fun hm => h (List.mem_cons_of_mem c hm)
    rw [List.cons_append, List.findIdx?_cons]
    rw [if_neg (by simp [hc])]
    rw [ih ht (i + 1)]
    simp
    omega

theorem takeWhile_space_nil (n w : Str) (h : ∀ c ∈ n, isWs c = false) :
    ((n ++ '=' :: w).takeWhile fun c => c = ' ') = [] := by
  cases n with
  | nil => simp [List.takeWhile_cons]
  | cons c t =>
    have hc : isWs c = false := h c (List.mem_cons_self c t)
    have hcsp : ¬ (c = ' ') := by
      intro hcs
      subst hcs
      simp [isWs] at hc
    simp [List.takeWhile_cons, hcsp]

theorem trimRight_eq_self (n : Str) (h : ∀ c ∈ n, isWs c = false) : trimRight n = n := by
  cases hrev : n.reverse with
  | nil =>
    have : n = [] := by simpa using congrArg List.reverse hrev
    simp [trimRight, this]
  | cons c t =>
    have hcn : c ∈ n := by
      rw [← List.mem_reverse, hrev]
      exact List.mem_cons_self c t
    have hc : isWs c = false := h c hcn
    have : n.reverse.reverse = (c :: t).reverse := congrArg List.reverse hrev
    simp only [List.reverse_reverse] at this
    rw [trimRight, hrev, List.dropWhile_cons, hc]
    simp [← this]

end HLSTree

namespace HLSTree

theorem parseAux_fuel_mono (f1 : Nat) :
    ∀ (s : Str) (acc : AttrMap) (f2 : Nat), s.length < f1 → s.length < f2 →
      parseTagAttributesAux f1 s acc = parseTagAttributesAux f2 s acc := by
  induction f1 with
  | zero =>
    intro s acc f2 h1
    omega
  | succ g ih =>
    intro s acc f2 h1 h2
    obtain ⟨h, rfl⟩ : ∃ h, f2 = h + 1 := ⟨f2 - 1, by omega⟩
    cases s with
    | nil => simp [parseTagAttributesAux]
    | cons c cs =>
      cases hf : List.findIdx? (fun x => x = '=') (c :: cs) with
      | none => simp [parseTagAttributesAux, hf]
      | some eq =>
        simp only [parseTagAttributesAux, hf]
        apply ih
        · simp only [List.length_drop, List.length_cons] at h1 ⊢
          omega
        · simp only [List.length_drop, List.length_cons] at h2 ⊢
          omega

theorem parseFrom_nil (acc : AttrMap) : parseFrom [] acc = acc := rfl

theorem parseFrom_no_eq (s : Str) (acc : AttrMap) (h : '=' ∉ s) :
    parseFrom s acc = acc := by
  have hfind : List.findIdx? (fun x => x = '=') s 0 = none := by
    apply findIdx?_none_of_all
    intro e he
    have hne : ¬ (e = '=') := by
      intro hc
      subst hc
      exact h he
    simp [hne]
  cases s with
  | nil => rfl
  | cons c cs => simp [parseFrom, parseTagAttributesAux, hfind]

end HLSTree

namespace HLSTree

theorem parseFrom_step (n tail0 : Str) (acc : AttrMap)
    (hneq : '=' ∉ n) (hnws : ∀ c ∈ n, isWs c = false) :
    parseFrom (n ++ '=' :: tail0) acc =
      parseFrom (tail0.drop ((scanAttrValue tail0 0).1 + 1))
        (mapInsert acc n
          (if (scanAttrValue tail0 0).2 ≠ 0 then
            trimStr ((tail0.drop 1).take ((scanAttrValue tail0 0).1 - 2))
          else trimStr (tail0.take (scanAttrValue tail0 0).1))) := by
  have hfind : List.findIdx? (fun x => x = '=') (n ++ '=' :: tail0) 0 = some n.length := by
    have := findIdx?_eq_char n tail0 hneq 0
    simpa using this
  have htake : (n ++ '=' :: tail0).take n.length = n :=
    List.take_left n ('=' :: tail0)
  have hdrop : (n ++ '=' :: tail0).drop (n.length + 1) = tail0 := by
    have h1 : n ++ '=' :: tail0 = (n ++ ['=']) ++ tail0 := by simp
    have h2 : (n ++ ['=']).length = n.length + 1 := by simp
    rw [h1, ← h2, List.drop_left]
  have hws := takeWhile_space_nil n tail0 hnws
  have htrim := trimRight_eq_self n hnws
  have hlen : (n ++ '=' :: tail0).length = n.length + 1 + tail0.length := by
    simp
    omega
  rw [parseFrom, hlen]
  rw [parseTagAttributesAux]
  rw [hfind]
  simp only [hws, List.length_nil, List.drop_zero, htake, htrim, hdrop]
  rw [show parseFrom (tail0.drop ((scanAttrValue tail0 0).1 + 1))
      (mapInsert acc n
        (if (scanAttrValue tail0 0).2 ≠ 0 then
          trimStr ((tail0.drop 1).take ((scanAttrValue tail0 0).1 - 2))
        else trimStr (tail0.take (scanAttrValue tail0 0).1))) =
      parseTagAttributesAux ((tail0.drop ((scanAttrValue tail0 0).1 + 1)).length + 1)
        (tail0.drop ((scanAttrValue tail0 0).1 + 1))
        (mapInsert acc n
          (if (scanAttrValue tail0 0).2 ≠ 0 then
            trimStr ((tail0.drop 1).take ((scanAttrValue tail0 0).1 - 2))
          else trimStr (tail0.take (scanAttrValue tail0 0).1))) from rfl]
  apply parseAux_fuel_mono
  · simp only [List.length_drop]
    omega
  · simp only [List.length_drop]
    omega

end HLSTree

namespace HLSTree

theorem parseFrom_step_unquoted (n v rest : Str) (acc : AttrMap)
    (hneq : '=' ∉ n) (hnws : ∀ c ∈ n, isWs c = false)
    (hv : ∀ c ∈ v, c ≠ ',' ∧ c ≠ '"') :
    parseFrom (n ++ '=' :: (v ++ ',' :: rest)) acc =
      parseFrom rest (mapInsert acc n (trimStr v)) := by
  have hscan := scanAttrValue_plain_comma v rest hv
  have hstep := parseFrom_step n (v ++ ',' :: rest) acc hneq hnws
  rw [hstep, hscan]
  have hdrop : (v ++ ',' :: rest).drop (v.length + 1) = rest := by
    have h1 : v ++ ',' :: rest = (v ++ [',']) ++ rest := by simp
    have h2 : (v ++ [',']).length = v.length + 1 := by simp
    rw [h1, ← h2, List.drop_left]
  have htakev : (v ++ ',' :: rest).take v.length = v := List.take_left v (',' :: rest)
  simp only [hdrop, htakev]
  simp

theorem parseFrom_end_unquoted (n v : Str) (acc : AttrMap)
    (hneq : '=' ∉ n) (hnws : ∀ c ∈ n, isWs c = false)
    (hv : ∀ c ∈ v, c ≠ ',' ∧ c ≠ '"') :
    parseFrom (n ++ '=' :: v) acc = mapInsert acc n (trimStr v) := by
  have hscan := scanAttrValue_plain_end v hv
  have hstep := parseFrom_step n v acc hneq hnws
  rw [hstep, hscan]
  have hdrop : v.drop (v.length + 1) = [] := by
    apply List.drop_eq_nil_of_le
    omega
  simp only [hdrop]
  simp [parseFrom_nil, List.take_length]

theorem parseFrom_step_quoted (n v rest : Str) (acc : AttrMap)
    (hneq : '=' ∉ n) (hnws : ∀ c ∈ n, isWs c = false)
    (hv : ∀ c ∈ v, c ≠ '"') :
    parseFrom (n ++ '=' :: ('"' :: v ++ '"' :: ',' :: rest)) acc =
      parseFrom rest (mapInsert acc n (trimStr v)) := by
  have hscan : scanAttrValue ('"' :: v ++ '"' :: ',' :: rest) 0 = (v.length + 2, 2) :=
    scanAttrValue_quoted v (',' :: rest) hv (Or.inr ⟨rest, rfl⟩)
  have hstep := parseFrom_step n ('"' :: v ++ '"' :: ',' :: rest) acc hneq hnws
  rw [hstep, hscan]
  have hdrop : (('"' :: v ++ '"' :: ',' :: rest).drop (v.length + 2 + 1)) = rest := by
    have h1 : '"' :: v ++ '"' :: ',' :: rest = (('"' :: v) ++ ['"', ',']) ++ rest := by simp
    have h2 : (('"' :: v) ++ ['"', ',']).length = v.length + 2 + 1 := by simp
    rw [h1, ← h2, List.drop_left]
  have htakev : (('"' :: v ++ '"' :: ',' :: rest).drop 1).take (v.length + 2 - 2) = v := by
    have h1 : ('"' :: v ++ '"' :: ',' :: rest).drop 1 = v ++ '"' :: ',' :: rest := rfl
    have h2 : v.length + 2 - 2 = v.length := by omega
    rw [h1, h2]
    exact List.take_left v ('"' :: ',' :: rest)
  simp only [hdrop, htakev]
  simp

theorem parseFrom_end_quoted (n v : Str) (acc : AttrMap)
    (hneq : '=' ∉ n) (hnws : ∀ c ∈ n, isWs c = false)
    (hv : ∀ c ∈ v, c ≠ '"') :
    parseFrom (n ++ '=' :: ('"' :: v ++ ['"'])) acc = mapInsert acc n (trimStr v) := by
  have hscan : scanAttrValue ('"' :: v ++ ['"']) 0 = (v.length + 2, 2) := by
    have := scanAttrValue_quoted v [] hv (Or.inl rfl)
    simpa using this
  have hstep := parseFrom_step n ('"' :: v ++ ['"']) acc hneq hnws
  rw [hstep, hscan]
  have hdrop : ('"' :: v ++ ['"']).drop (v.length + 2 + 1) = [] := by
    apply List.drop_eq_nil_of_le
    simp
  have htakev : (('"' :: v ++ ['"']).drop 1).take (v.length + 2 - 2) = v := by
    have h1 : ('"' :: v ++ ['"']).drop 1 = v ++ ['"'] := rfl
    have h2 : v.length + 2 - 2 = v.length := by omega
    rw [h1, h2]
    exact List.take_left v ['"']
  simp only [hdrop, htakev]
  simp [parseFrom_nil]

end HLSTree

namespace HLSTree

/-! ## C9 -/

/-- C9: for the attribute parser, (i) a comma inside a double-quoted value
is never treated as a pair separator — the quoted pair parses whole, to the
unquoted trimmed value, for any value without quote characters (commas
included); (ii) when the same attribute name occurs twice, the last
occurrence's value wins; (iii) a trailing suffix without `=` terminates
parsing, discarding the suffix while keeping every pair parsed before it. -/
theorem C9_attribute_parsing (n v v1 v2 t : Str)
    (hneq : '=' ∉ n) (hnws : ∀ c ∈ n, isWs c = false)
    (hv : ∀ c ∈ v, c ≠ '"')
    (hv1 : ∀ c ∈ v1, c ≠ ',' ∧ c ≠ '"') (hv2 : ∀ c ∈ v2, c ≠ ',' ∧ c ≠ '"')
    (ht : '=' ∉ t) :
    parseTagAttributes (n ++ '=' :: ('"' :: v ++ ['"'])) = [(n, trimStr v)] ∧
    mapFind (parseTagAttributes (n ++ '=' :: (v1 ++ ',' :: (n ++ '=' :: v2)))) n = trimStr v2 ∧
    parseTagAttributes (n ++ '=' :: (v1 ++ ',' :: t)) = [(n, trimStr v1)] := by
  have hpt : ∀ s : Str, parseTagAttributes s = parseFrom s [] := fun s => rfl
  refine ⟨?_, ?_, ?_⟩
  · rw [hpt, parseFrom_end_quoted n v [] hneq hnws hv]
    rfl
  · rw [hpt, parseFrom_step_unquoted n v1 (n ++ '=' :: v2) [] hneq hnws hv1,
      parseFrom_end_unquoted n v2 _ hneq hnws hv2]
    simp [mapInsert, mapFind]
  · rw [hpt, parseFrom_step_unquoted n v1 t [] hneq hnws hv1, parseFrom_no_eq t _ ht]
    rfl

/-- Witness for C9 on concrete attribute lists. -/
theorem C9_attribute_parsing_witness :
    parseTagAttributes ("CODECS".data ++ '=' :: ('"' :: "mp4a.40.2, avc1.4d400d".data ++ ['"'])) =
      [("CODECS".data, "mp4a.40.2, avc1.4d400d".data)] ∧
    mapFind (parseTagAttributes
      ("A".data ++ '=' :: ("1".data ++ ',' :: ("A".data ++ '=' :: "2".data)))) "A".data =
      "2".data ∧
    parseTagAttributes ("A".data ++ '=' :: ("1".data ++ ',' :: "junk".data)) =
      [("A".data, "1".data)] :=
  ⟨((C9_attribute_parsing "CODECS".data "mp4a.40.2, avc1.4d400d".data "1".data "2".data
      "junk".data (by decide) (by decide) (by decide) (by decide) (by decide)
      (by decide)).1).trans (by decide),
   ((C9_attribute_parsing "A".data "x".data "1".data "2".data "junk".data (by decide)
      (by decide) (by decide) (by decide) (by decide) (by decide)).2.1).trans (by decide),
   ((C9_attribute_parsing "A".data "x".data "1".data "2".data "junk".data (by decide)
      (by decide) (by decide) (by decide) (by decide) (by decide)).2.2).trans (by decide)⟩

end HLSTree

namespace HLSTree

/-! ## C3: helper lemmas -/

theorem setPeriod_fields (ls : LoopState) (p : CPeriod) :
    (ls.setPeriod p).prepareStatus = ls.prepareStatus ∧
    (ls.setPeriod p).wvTrace = ls.wvTrace ∧
    (ls.setPeriod p).isExtM3U = ls.isExtM3U ∧
    (ls.setPeriod p).newSegments = ls.newSegments :=
  ⟨rfl, rfl, rfl, rfl⟩

theorem processEncryption_fst_ctx (b : Str) (a : AttrMap) (ctx ctx' : EncContext) :
    (processEncryption b a ctx).1 = (processEncryption b a ctx').1 := by
  simp only [processEncryption]
  split_ifs <;> rfl

theorem applyMapTag_fields (bu : Str) (ls : LoopState) (tv : Str) :
    (applyMapTag bu ls tv).prepareStatus = ls.prepareStatus ∧
    (applyMapTag bu ls tv).wvTrace = ls.wvTrace ∧
    (applyMapTag bu ls tv).isExtM3U = ls.isExtM3U := by
  refine ⟨?_, ?_, ?_⟩
  all_goals simp only [applyMapTag]
  all_goals repeat' split
  all_goals rfl

theorem applyByteRangeTag_fields (ls : LoopState) (tv : Str) (seg : CSegment) :
    (applyByteRangeTag ls tv seg).prepareStatus = ls.prepareStatus ∧
    (applyByteRangeTag ls tv seg).wvTrace = ls.wvTrace ∧
    (applyByteRangeTag ls tv seg).isExtM3U = ls.isExtM3U := by
  refine ⟨?_, ?_, ?_⟩
  all_goals simp only [applyByteRangeTag]

theorem finishUriLine_fields (bu : Str) (ls : LoopState) (l : Str) (seg : CSegment) :
    (finishUriLine bu ls l seg).prepareStatus = ls.prepareStatus ∧
    (finishUriLine bu ls l seg).wvTrace = ls.wvTrace ∧
    (finishUriLine bu ls l seg).isExtM3U = ls.isExtM3U := by
  refine ⟨?_, ?_, ?_⟩
  all_goals simp only [finishUriLine]
  all_goals repeat' split
  all_goals rfl

theorem applyUriLine_fields (st : StreamType) (bu : Str) (ls : LoopState) (l : Str)
    (seg : CSegment) :
    (applyUriLine st bu ls l seg).prepareStatus = ls.prepareStatus ∧
    (applyUriLine st bu ls l seg).wvTrace = ls.wvTrace ∧
    (applyUriLine st bu ls l seg).isExtM3U = ls.isExtM3U := by
  refine ⟨?_, ?_, ?_⟩
  all_goals simp only [applyUriLine]
  all_goals repeat' split
  all_goals first
    | rfl
    | exact ((finishUriLine_fields _ _ _ _).1).trans rfl
    | exact ((finishUriLine_fields _ _ _ _).2.1).trans rfl
    | exact ((finishUriLine_fields _ _ _ _).2.2).trans rfl

theorem applyDiscontSeqTag_fields (u : Bool) (ls : LoopState) (tv : Str) :
    (applyDiscontSeqTag u ls tv).prepareStatus = ls.prepareStatus ∧
    (applyDiscontSeqTag u ls tv).wvTrace = ls.wvTrace ∧
    (applyDiscontSeqTag u ls tv).isExtM3U = ls.isExtM3U := by
  refine ⟨?_, ?_, ?_⟩
  all_goals simp only [applyDiscontSeqTag]

theorem adtStep1_frame (ls : LoopState) :
    ((adtStep1 ls).prepareStatus, (adtStep1 ls).wvTrace, (adtStep1 ls).isExtM3U) =
      (ls.prepareStatus, ls.wvTrace, ls.isExtM3U) := rfl

theorem adtStep2_frame (ls : LoopState) :
    ((adtStep2 ls).prepareStatus, (adtStep2 ls).wvTrace, (adtStep2 ls).isExtM3U) =
      (ls.prepareStatus, ls.wvTrace, ls.isExtM3U) := by
  simp only [adtStep2]
  split <;> rfl

theorem adtStep3_frame (ls : LoopState) :
    ((adtStep3 ls).prepareStatus, (adtStep3 ls).wvTrace, (adtStep3 ls).isExtM3U) =
      (ls.prepareStatus, ls.wvTrace, ls.isExtM3U) := rfl

theorem adtStep4_frame (st : StreamType) (ls : LoopState) :
    ((adtStep4 st ls).prepareStatus, (adtStep4 st ls).wvTrace, (adtStep4 st ls).isExtM3U) =
      (ls.prepareStatus, ls.wvTrace, ls.isExtM3U) := by
  simp only [adtStep4]
  split <;> rfl

theorem adtStep5_frame (ls : LoopState) :
    ((adtStep5 ls).prepareStatus, (adtStep5 ls).wvTrace, (adtStep5 ls).isExtM3U) =
      (ls.prepareStatus, ls.wvTrace, ls.isExtM3U) := rfl

theorem adtStep6_frame (sw : List CSegment) (ls : LoopState) :
    ((adtStep6 sw ls).prepareStatus, (adtStep6 sw ls).wvTrace, (adtStep6 sw ls).isExtM3U) =
      (ls.prepareStatus, ls.wvTrace, ls.isExtM3U) := rfl

theorem adtStep7_frame (ls : LoopState) :
    ((adtStep7 ls).prepareStatus, (adtStep7 ls).wvTrace, (adtStep7 ls).isExtM3U) =
      (ls.prepareStatus, ls.wvTrace, ls.isExtM3U) := by
  simp only [adtStep7]
  split <;> rfl

theorem adtStep8_frame (ls : LoopState) :
    ((adtStep8 ls).prepareStatus, (adtStep8 ls).wvTrace, (adtStep8 ls).isExtM3U) =
      (ls.prepareStatus, ls.wvTrace, ls.isExtM3U) := by
  simp only [adtStep8]
  split <;> rfl

theorem adtStep9_frame (sw : List CSegment) (ls : LoopState) :
    ((adtStep9 sw ls).prepareStatus, (adtStep9 sw ls).wvTrace, (adtStep9 sw ls).isExtM3U) =
      (ls.prepareStatus, ls.wvTrace, ls.isExtM3U) := rfl

theorem adtStep10_frame (st : StreamType) (ls : LoopState) :
    ((adtStep10 st ls).prepareStatus, (adtStep10 st ls).wvTrace, (adtStep10 st ls).isExtM3U) =
      (ls.prepareStatus, ls.wvTrace, ls.isExtM3U) := by
  simp only [adtStep10]
  split <;> rfl

theorem adtStep11_frame (ls : LoopState) :
    ((adtStep11 ls).prepareStatus, (adtStep11 ls).wvTrace, (adtStep11 ls).isExtM3U) =
      (ls.prepareStatus, ls.wvTrace, ls.isExtM3U) := by
  simp only [adtStep11]
  split <;> rfl

theorem applyDiscontTag_fields (st : StreamType) (ls : LoopState) :
    (applyDiscontTag st ls).prepareStatus = ls.prepareStatus ∧
    (applyDiscontTag st ls).wvTrace = ls.wvTrace ∧
    (applyDiscontTag st ls).isExtM3U = ls.isExtM3U := by
  have frame : ((applyDiscontTag st ls).prepareStatus, (applyDiscontTag st ls).wvTrace,
      (applyDiscontTag st ls).isExtM3U) = (ls.prepareStatus, ls.wvTrace, ls.isExtM3U) := by
    simp only [applyDiscontTag]
    split
    · rfl
    · exact (adtStep11_frame _).trans ((adtStep10_frame st _).trans
        ((adtStep9_frame _ _).trans ((adtStep8_frame _).trans
        ((adtStep7_frame _).trans ((adtStep6_frame _ _).trans
        ((adtStep5_frame _).trans ((adtStep4_frame st _).trans
        ((adtStep3_frame _).trans ((adtStep2_frame _).trans (adtStep1_frame _))))))))))
  exact ⟨congrArg Prod.fst frame, congrArg (fun p => p.2.1) frame,
    congrArg (fun p => p.2.2) frame⟩

theorem ceStepA_newSegments (ls : LoopState) : (ceStepA ls).newSegments = ls.newSegments := by
  simp only [ceStepA]
  split <;> rfl

theorem ceStepA_status (ls : LoopState) : (ceStepA ls).prepareStatus = ls.prepareStatus := by
  simp only [ceStepA]
  split <;> rfl

theorem ceStepB_status (sw : List CSegment) (ls : LoopState) :
    (ceStepB sw ls).prepareStatus = ls.prepareStatus := by
  simp only [ceStepB]
  split <;> rfl

theorem ceStepC_status (ls : LoopState) : (ceStepC ls).prepareStatus = ls.prepareStatus := rfl

theorem ceStepD1_status (st : StreamType) (md : Bool) (ls : LoopState) :
    (ceStepD1 st md ls).1.prepareStatus = ls.prepareStatus := by
  simp only [ceStepD1]
  repeat' split
  all_goals rfl

theorem ceStepD2_status (md : Bool) (ls : LoopState) :
    (ceStepD2 md ls).1.prepareStatus = ls.prepareStatus := by
  simp only [ceStepD2]
  split <;> rfl

theorem ceStepD_status (st : StreamType) (ls : LoopState) :
    (ceStepD st ls).prepareStatus = ls.prepareStatus := by
  simp only [ceStepD]
  split
  · split
    · exact ceStepD1_status st _ ls
    · exact ceStepD2_status _ ls
  · split
    · exact ceStepD1_status st _ ls
    · exact ceStepD2_status _ ls

theorem childEpilogue_error_iff (st : StreamType) (ls : LoopState) :
    (∃ t, childEpilogue st ls = Except.error t) ↔
      (ls.isExtM3U = false ∨ ls.newSegments = []) := by
  simp only [childEpilogue, ceStepA_newSegments]
  by_cases h1 : ls.isExtM3U <;> by_cases h2 : ls.newSegments = [] <;> simp [h1, h2]

theorem childEpilogue_ok_status (st : StreamType) (ls ls2 : LoopState)
    (h : childEpilogue st ls = Except.ok ls2) : ls2.prepareStatus = ls.prepareStatus := by
  simp only [childEpilogue, ceStepA_newSegments] at h
  split at h
  · exact absurd h (by simp)
  · split at h
    · exact absurd h (by simp)
    · have h2 : ls2 = ceStepD st (ceStepC (ceStepB ls.newSegments (ceStepA ls))) := by
        injection h with h3
        exact h3.symm
      rw [h2, ceStepD_status, ceStepC_status, ceStepB_status, ceStepA_status]

theorem applyKeyTag_error_iff (st : StreamType) (rb : Str) (ls : LoopState) (tv : Str) :
    (∃ e, applyKeyTag st rb ls tv = Except.error e) ↔
      (processEncryption rb (parseTagAttributes tv) {}).1 = EncryptionType.notSupported := by
  rw [← processEncryption_fst_ctx rb (parseTagAttributes tv) ls.tree.enc {}]
  cases hcls : (processEncryption rb (parseTagAttributes tv) ls.tree.enc).1 <;>
    simp [applyKeyTag, hcls]

theorem applyKeyTag_ok (st : StreamType) (rb : Str) (ls : LoopState) (tv : Str)
    (ls' : LoopState) (h : applyKeyTag st rb ls tv = Except.ok ls') :
    ls'.isExtM3U = ls.isExtM3U ∧
    ((ls'.prepareStatus = ls.prepareStatus ∧ ls'.wvTrace = ls.wvTrace) ∨
     (∃ u, ls'.wvTrace = ls.wvTrace ++ [u] ∧
       ls'.prepareStatus =
         (if u = 1 || decide (ls.prepareStatus = PrepareRepStatus.drmChanged) then
           PrepareRepStatus.drmChanged else PrepareRepStatus.drmUnchanged))) := by
  cases hcls : (processEncryption rb (parseTagAttributes tv) ls.tree.enc).1 <;>
    simp only [applyKeyTag, hcls] at h
  case notSupported => exact Except.noConfusion h
  case clear =>
    injection h with hh
    subst hh
    exact ⟨rfl, Or.inl ⟨rfl, rfl⟩⟩
  case unknown =>
    injection h with hh
    subst hh
    exact ⟨rfl, Or.inl ⟨rfl, rfl⟩⟩
  case aes128 =>
    injection h with hh
    subst hh
    exact ⟨rfl, Or.inl ⟨rfl, rfl⟩⟩
  case widevine =>
    injection h with hh
    subst hh
    exact ⟨rfl, Or.inr ⟨_, rfl, rfl⟩⟩

theorem drmInv_of_eq (ls ls' : LoopState) (hs : ls'.prepareStatus = ls.prepareStatus)
    (ht : ls'.wvTrace = ls.wvTrace) (h : drmInv ls) : drmInv ls' := by
  unfold drmInv at *
  rw [hs, ht]
  exact h

theorem drmInv_widevine_step (ls ls' : LoopState) (u : Nat)
    (ht : ls'.wvTrace = ls.wvTrace ++ [u])
    (hs : ls'.prepareStatus =
      (if u = 1 || decide (ls.prepareStatus = PrepareRepStatus.drmChanged) then
        PrepareRepStatus.drmChanged else PrepareRepStatus.drmUnchanged))
    (h : drmInv ls) : drmInv ls' := by
  obtain ⟨h1, h2, h3⟩ := h
  unfold drmInv
  rw [hs, ht]
  by_cases hu : u = 1
  · subst hu
    refine ⟨?_, ?_, ?_⟩ <;> simp
  · by_cases hc : ls.prepareStatus = PrepareRepStatus.drmChanged
    · have hmem : 1 ∈ ls.wvTrace := h1.mp hc
      refine ⟨?_, ?_, ?_⟩ <;> simp [hu, hc, hmem]
    · have hmem : 1 ∉ ls.wvTrace := fun hm => hc (h1.mpr hm)
      refine ⟨?_, ?_, ?_⟩ <;> simp [hu, hc, hmem, Ne.symm hu]

theorem drmInv_init (t : TreeState) (i : Nat) : drmInv { tree := t, periodIdx := i } := by
  unfold drmInv
  refine ⟨?_, ?_, ?_⟩ <;> simp

theorem drmInv_ne_failure (ls : LoopState) (h : drmInv ls) :
    ls.prepareStatus ≠ PrepareRepStatus.failure := by
  intro hf
  obtain ⟨h1, h2, h3⟩ := h
  by_cases ht : ls.wvTrace = []
  · have := h3.mpr ht
    rw [hf] at this
    exact PrepareRepStatus.noConfusion this
  · by_cases hone : 1 ∈ ls.wvTrace
    · have := h1.mpr hone
      rw [hf] at this
      exact PrepareRepStatus.noConfusion this
    · have := h2.mpr ⟨ht, hone⟩
      rw [hf] at this
      exact PrepareRepStatus.noConfusion this

/-- `processLine` with its local `let`s inlined, for case splitting. -/
theorem processLine_eq (u : Bool) (st : StreamType) (rb bu : Str) (ls : LoopState)
    (l : Str) :
    processLine u st rb bu ls l =
      (if !ls.isExtM3U then
        Except.ok (if (parseTagNameValue l).1 = "#EXTM3U".data then
          { ls with isExtM3U := true } else ls)
      else if (parseTagNameValue l).1 = "#EXT-X-KEY".data then
        applyKeyTag st rb ls (parseTagNameValue l).2
      else if (parseTagNameValue l).1 = "#EXT-X-MAP".data then
        Except.ok (applyMapTag bu ls (parseTagNameValue l).2)
      else if (parseTagNameValue l).1 = "#EXT-X-MEDIA-SEQUENCE".data then
        Except.ok { ls with newStartNumber := toUint64 (parseTagNameValue l).2 }
      else if (parseTagNameValue l).1 = "#EXT-X-PLAYLIST-TYPE".data then
        Except.ok (if compareNoCase (parseTagNameValue l).2 "VOD".data then
          { ls with tree := { ls.tree with
              refreshPlayList := false, hasTimeshiftBuffer := false } }
          else ls)
      else if (parseTagNameValue l).1 = "#EXT-X-TARGETDURATION".data then
        Except.ok { ls with tree := { ls.tree with
            updateInterval := applyTargetDuration ls.tree.updateInterval
              (toUint32 (parseTagNameValue l).2) } }
      else if (parseTagNameValue l).1 = "#EXTINF".data then
        Except.ok { ls with
          newSegment := some { url := [], startPTS := ls.curSegStartPts,
                               duration := extinfDuration (parseTagNameValue l).2 ls.curRep.timescale,
                               psshSet := ls.psshSetPos },
          curSegStartPts := ls.curSegStartPts +
            extinfDuration (parseTagNameValue l).2 ls.curRep.timescale }
      else if (parseTagNameValue l).1 = "#EXT-X-BYTERANGE".data && ls.newSegment.isSome then
        Except.ok (applyByteRangeTag ls (parseTagNameValue l).2 (ls.newSegment.getD {}))
      else if ls.newSegment.isSome && decide (l ≠ []) && decide (l.headD ' ' ≠ '#') then
        Except.ok (applyUriLine st bu ls l (ls.newSegment.getD {}))
      else if (parseTagNameValue l).1 = "#EXT-X-DISCONTINUITY-SEQUENCE".data then
        Except.ok (applyDiscontSeqTag u ls (parseTagNameValue l).2)
      else if (parseTagNameValue l).1 = "#EXT-X-DISCONTINUITY".data then
        Except.ok (applyDiscontTag st ls)
      else if (parseTagNameValue l).1 = "#EXT-X-ENDLIST".data then
        Except.ok { ls with tree := { ls.tree with
            refreshPlayList := false, hasTimeshiftBuffer := false } }
      else
        Except.ok ls) := rfl

theorem processLine_shape (u : Bool) (st : StreamType) (rb bu : Str) (ls : LoopState)
    (l : Str) :
    (ls.isExtM3U = true → (parseTagNameValue l).1 = "#EXT-X-KEY".data →
      processLine u st rb bu ls l = applyKeyTag st rb ls (parseTagNameValue l).2) ∧
    (¬(ls.isExtM3U = true ∧ (parseTagNameValue l).1 = "#EXT-X-KEY".data) →
      ∃ ls', processLine u st rb bu ls l = Except.ok ls' ∧
        ls'.isExtM3U = (ls.isExtM3U || decide ((parseTagNameValue l).1 = "#EXTM3U".data)) ∧
        ls'.prepareStatus = ls.prepareStatus ∧ ls'.wvTrace = ls.wvTrace) := by
  constructor
  · intro hm hk
    rw [processLine_eq, if_neg (by simp [hm]), if_pos hk]
  · intro hnk
    rw [processLine_eq]
    by_cases h1 : (!ls.isExtM3U) = true
    · rw [if_pos h1]
      have hm : ls.isExtM3U = false := by simpa using h1
      by_cases h2 : (parseTagNameValue l).1 = "#EXTM3U".data
      · rw [if_pos h2]
        exact ⟨_, rfl, by simp [hm, h2], rfl, rfl⟩
      · rw [if_neg h2]
        exact ⟨_, rfl, by simp [hm, h2], rfl, rfl⟩
    · rw [if_neg h1]
      have hm : ls.isExtM3U = true := by simpa using h1
      have hrhs : (ls.isExtM3U || decide ((parseTagNameValue l).1 = "#EXTM3U".data)) = true := by
        simp [hm]
      have hk : ¬((parseTagNameValue l).1 = "#EXT-X-KEY".data) := fun hk2 => hnk ⟨hm, hk2⟩
      rw [if_neg hk, hrhs]
      by_cases h3 : (parseTagNameValue l).1 = "#EXT-X-MAP".data
      · rw [if_pos h3]
        exact ⟨_, rfl, ((applyMapTag_fields bu ls _).2.2).trans hm,
          (applyMapTag_fields bu ls _).1, (applyMapTag_fields bu ls _).2.1⟩
      · rw [if_neg h3]
        by_cases h4 : (parseTagNameValue l).1 = "#EXT-X-MEDIA-SEQUENCE".data
        · rw [if_pos h4]
          exact ⟨_, rfl, hm, rfl, rfl⟩
        · rw [if_neg h4]
          by_cases h5 : (parseTagNameValue l).1 = "#EXT-X-PLAYLIST-TYPE".data
          · rw [if_pos h5]
            by_cases hv : compareNoCase (parseTagNameValue l).2 "VOD".data = true
            · rw [if_pos hv]
              exact ⟨_, rfl, hm, rfl, rfl⟩
            · rw [if_neg hv]
              exact ⟨_, rfl, hm, rfl, rfl⟩
          · rw [if_neg h5]
            by_cases h6 : (parseTagNameValue l).1 = "#EXT-X-TARGETDURATION".data
            · rw [if_pos h6]
              exact ⟨_, rfl, hm, rfl, rfl⟩
            · rw [if_neg h6]
              by_cases h7 : (parseTagNameValue l).1 = "#EXTINF".data
              · rw [if_pos h7]
                exact ⟨_, rfl, hm, rfl, rfl⟩
              · rw [if_neg h7]
                by_cases h8 : ((parseTagNameValue l).1 = "#EXT-X-BYTERANGE".data &&
                    ls.newSegment.isSome) = true
                · rw [if_pos h8]
                  exact ⟨_, rfl, ((applyByteRangeTag_fields ls _ _).2.2).trans hm,
                    (applyByteRangeTag_fields ls _ _).1, (applyByteRangeTag_fields ls _ _).2.1⟩
                · rw [if_neg h8]
                  by_cases h9 : (ls.newSegment.isSome && decide (l ≠ []) &&
                      decide (l.headD ' ' ≠ '#')) = true
                  · rw [if_pos h9]
                    exact ⟨_, rfl, ((applyUriLine_fields st bu ls _ _).2.2).trans hm,
                      (applyUriLine_fields st bu ls _ _).1, (applyUriLine_fields st bu ls _ _).2.1⟩
                  · rw [if_neg h9]
                    by_cases h10 : (parseTagNameValue l).1 = "#EXT-X-DISCONTINUITY-SEQUENCE".data
                    · rw [if_pos h10]
                      exact ⟨_, rfl, ((applyDiscontSeqTag_fields u ls _).2.2).trans hm,
                        (applyDiscontSeqTag_fields u ls _).1, (applyDiscontSeqTag_fields u ls _).2.1⟩
                    · rw [if_neg h10]
                      by_cases h11 : (parseTagNameValue l).1 = "#EXT-X-DISCONTINUITY".data
                      · rw [if_pos h11]
                        exact ⟨_, rfl, ((applyDiscontTag_fields st ls).2.2).trans hm,
                          (applyDiscontTag_fields st ls).1, (applyDiscontTag_fields st ls).2.1⟩
                      · rw [if_neg h11]
                        by_cases h12 : (parseTagNameValue l).1 = "#EXT-X-ENDLIST".data
                        · rw [if_pos h12]
                          exact ⟨_, rfl, hm, rfl, rfl⟩
                        · rw [if_neg h12]
                          exact ⟨ls, rfl, hm, rfl, rfl⟩

theorem processLine_ok (u : Bool) (st : StreamType) (rb bu : Str) (ls : LoopState)
    (l : Str) (ls' : LoopState)
    (h : processLine u st rb bu ls l = Except.ok ls') :
    ls'.isExtM3U = (ls.isExtM3U || decide ((parseTagNameValue l).1 = "#EXTM3U".data)) ∧
    (drmInv ls → drmInv ls') := by
  by_cases hcase : ls.isExtM3U = true ∧ (parseTagNameValue l).1 = "#EXT-X-KEY".data
  · obtain ⟨hm, hk⟩ := hcase
    rw [(processLine_shape u st rb bu ls l).1 hm hk] at h
    obtain ⟨he, hshape⟩ := applyKeyTag_ok st rb ls _ ls' h
    refine ⟨by rw [he, hm]; simp, fun hi => ?_⟩
    rcases hshape with ⟨hs, ht⟩ | ⟨uu, ht, hs⟩
    · exact drmInv_of_eq ls ls' hs ht hi
    · exact drmInv_widevine_step ls ls' uu ht hs hi
  · obtain ⟨ls2, heq, hext, hs, ht⟩ := (processLine_shape u st rb bu ls l).2 hcase
    rw [heq] at h
    injection h with hh
    subst hh
    exact ⟨hext, fun hi => drmInv_of_eq ls _ hs ht hi⟩

theorem processLine_error_iff (u : Bool) (st : StreamType) (rb bu : Str) (ls : LoopState)
    (l : Str) :
    (∃ e, processLine u st rb bu ls l = Except.error e) ↔
      (ls.isExtM3U = true ∧ (parseTagNameValue l).1 = "#EXT-X-KEY".data ∧
       (processEncryption rb (parseTagAttributes (parseTagNameValue l).2) {}).1 =
         EncryptionType.notSupported) := by
  constructor
  · rintro ⟨e, he⟩
    by_cases hcase : ls.isExtM3U = true ∧ (parseTagNameValue l).1 = "#EXT-X-KEY".data
    · obtain ⟨hm, hk⟩ := hcase
      rw [(processLine_shape u st rb bu ls l).1 hm hk] at he
      exact ⟨hm, hk, (applyKeyTag_error_iff st rb ls _).mp ⟨e, he⟩⟩
    · obtain ⟨ls2, heq, _⟩ := (processLine_shape u st rb bu ls l).2 hcase
      rw [heq] at he
      exact Except.noConfusion he
  · rintro ⟨hm, hk, hcls⟩
    rw [(processLine_shape u st rb bu ls l).1 hm hk]
    exact (applyKeyTag_error_iff st rb ls _).mpr hcls

theorem hasExtM3U_cons (l : Str) (rest : List Str) :
    hasExtM3U (l :: rest) =
      (decide ((parseTagNameValue l).1 = "#EXTM3U".data) || hasExtM3U rest) := by
  simp [hasExtM3U]

theorem runChildLines_ok (u : Bool) (st : StreamType) (rb bu : Str) (lines : List Str) :
    ∀ ls ls', runChildLines u st rb bu ls lines = Except.ok ls' →
      ls'.isExtM3U = (ls.isExtM3U || hasExtM3U lines) ∧ (drmInv ls → drmInv ls') := by
  induction lines with
  | nil =>
    intro ls ls' h
    injection h with hh
    subst hh
    simp [hasExtM3U]
  | cons l rest ih =>
    intro ls ls' h
    rw [runChildLines] at h
    cases hp : processLine u st rb bu ls l with
    | error e =>
      rw [hp] at h
      exact Except.noConfusion h
    | ok ls1 =>
      rw [hp] at h
      obtain ⟨h1, h2⟩ := processLine_ok u st rb bu ls l ls1 hp
      obtain ⟨h3, h4⟩ := ih ls1 ls' h
      refine ⟨?_, fun hi => h4 (h2 hi)⟩
      rw [h3, h1, hasExtM3U_cons, Bool.or_assoc]

theorem runChildLines_error_iff (u : Bool) (st : StreamType) (rb bu : Str)
    (lines : List Str) :
    ∀ ls, (∃ e, runChildLines u st rb bu ls lines = Except.error e) ↔
      unsupportedKeySeen rb ls.isExtM3U lines = true := by
  induction lines with
  | nil =>
    intro ls
    simp [runChildLines, unsupportedKeySeen]
  | cons l rest ih =>
    intro ls
    by_cases hm : ls.isExtM3U
    · by_cases hk : ((parseTagNameValue l).1 = "#EXT-X-KEY".data ∧
        (processEncryption rb (parseTagAttributes (parseTagNameValue l).2) {}).1 =
          EncryptionType.notSupported)
      · obtain ⟨e, he⟩ := (processLine_error_iff u st rb bu ls l).mpr ⟨hm, hk.1, hk.2⟩
        refine ⟨fun _ => ?_, fun _ => ⟨e, ?_⟩⟩
        · rw [hm]
          simp [unsupportedKeySeen, hk.1, hk.2]
        · rw [runChildLines, he]
      · cases hp : processLine u st rb bu ls l with
        | error e =>
          obtain ⟨_, ha, hb⟩ := (processLine_error_iff u st rb bu ls l).mp ⟨e, hp⟩
          exact absurd ⟨ha, hb⟩ hk
        | ok ls1 =>
          have h1 := (processLine_ok u st rb bu ls l ls1 hp).1
          have hm1 : ls1.isExtM3U = true := by rw [h1, hm]; simp
          have hcond : (decide ((parseTagNameValue l).1 = "#EXT-X-KEY".data) &&
              decide ((processEncryption rb (parseTagAttributes (parseTagNameValue l).2) {}).1 =
                EncryptionType.notSupported)) = false := by
            rw [Bool.and_eq_false_iff]
            by_cases ha : (parseTagNameValue l).1 = "#EXT-X-KEY".data
            · refine Or.inr ?_
              rw [decide_eq_false_iff_not]
              exact fun hb => hk ⟨ha, hb⟩
            · exact Or.inl (by simp [ha])
          have lhs_eq : (∃ e, runChildLines u st rb bu ls (l :: rest) = Except.error e) ↔
              (∃ e, runChildLines u st rb bu ls1 rest = Except.error e) := by
            simp only [runChildLines, hp]
          rw [lhs_eq, ih ls1, hm1, hm]
          simp only [unsupportedKeySeen, Bool.not_true, Bool.false_eq_true, if_false, hcond]
      -- the remaining reduction is definitional once the scan condition is false
    · have hm0 : ls.isExtM3U = false := by simpa using hm
      cases hp : processLine u st rb bu ls l with
      | error e =>
        obtain ⟨ha, _, _⟩ := (processLine_error_iff u st rb bu ls l).mp ⟨e, hp⟩
        exact absurd ha hm
      | ok ls1 =>
        have h1 := (processLine_ok u st rb bu ls l ls1 hp).1
        have hm1 : ls1.isExtM3U = decide ((parseTagNameValue l).1 = "#EXTM3U".data) := by
          rw [h1, hm0]
          simp
        have lhs_eq : (∃ e, runChildLines u st rb bu ls (l :: rest) = Except.error e) ↔
            (∃ e, runChildLines u st rb bu ls1 rest = Except.error e) := by
          simp only [runChildLines, hp]
        rw [lhs_eq, ih ls1, hm1, hm0]
        simp [unsupportedKeySeen]

theorem finishPrepare_snd (t : TreeState) (pl : Option CPeriod) (u : Bool)
    (a b : Nat) (st : PrepareRepStatus) : (finishPrepare t pl u a b st).2 = st := rfl

theorem prepareDl_run_error (tree0 : TreeState) (i : Nat) (st : StreamType) (u : Bool)
    (rb eu : Str) (rawLines : List Str) (lsF : LoopState)
    (h : runChildLines u st rb (removeParameters eu) { tree := tree0, periodIdx := i }
      (rawLines.filter (fun l => l ≠ [])) = Except.error lsF) :
    prepareDl tree0 i st u rb eu rawLines = (lsF.tree, PrepareRepStatus.failure) := by
  simp only [prepareDl]
  rw [h]

theorem prepareDl_run_ok (tree0 : TreeState) (i : Nat) (st : StreamType) (u : Bool)
    (rb eu : Str) (rawLines : List Str) (ls1 : LoopState)
    (h : runChildLines u st rb (removeParameters eu) { tree := tree0, periodIdx := i }
      (rawLines.filter (fun l => l ≠ [])) = Except.ok ls1) :
    prepareDl tree0 i st u rb eu rawLines = prepareEpi tree0 i st u ls1 := by
  simp only [prepareDl]
  rw [h]

theorem prepareEpi_error (tree0 : TreeState) (i : Nat) (st : StreamType) (u : Bool)
    (ls1 : LoopState) (t : TreeState) (h : childEpilogue st ls1 = Except.error t) :
    prepareEpi tree0 i st u ls1 = (t, PrepareRepStatus.failure) := by
  simp only [prepareEpi]
  rw [h]

theorem prepareEpi_ok (tree0 : TreeState) (i : Nat) (st : StreamType) (u : Bool)
    (ls1 ls2 : LoopState) (h : childEpilogue st ls1 = Except.ok ls2) :
    prepareEpi tree0 i st u ls1 =
      finishPrepare ls2.tree ls2.periodLost u (tree0.periods.getD i {}).id
        (getCurrentSegmentNumber (tree0.periods.getD i {}).rep) ls2.prepareStatus := by
  simp only [prepareEpi]
  rw [h]

/-- C3 (corrected).  Return-value semantics of `prepareRepresentation`
(HLSTree.cpp 182-652): an empty source URL is checked FIRST and returns
FAILURE even for a representation marked downloaded (refuting the claim's
last sentence); a downloaded representation, or a failed download, returns
OK without parsing; on a fetched child playlist the result is FAILURE
exactly when the playlist has no `#EXTM3U` tag, declares an unsupported
encryption method, or produces no segments; otherwise it is DRMCHANGED when
some `EXT-X-KEY` interned a fresh Widevine PSSHSet (post-insert usage count
1 in the ghost trace), DRMUNCHANGED when Widevine keys were interned but
none fresh, and OK when no Widevine key was seen. -/
theorem C3_prepare_status_semantics (tree0 : TreeState) (i : Nat) (st : StreamType)
    (u : Bool) (rb : Str) (dl : Option (Str × List Str)) :
    ((tree0.periods.getD i {}).rep.sourceUrl = [] →
      prepareRep tree0 i st u rb dl = (tree0, PrepareRepStatus.failure)) ∧
    ((tree0.periods.getD i {}).rep.sourceUrl ≠ [] →
      ((tree0.periods.getD i {}).rep.isDownloaded = true →
        (prepareRep tree0 i st u rb dl).2 = PrepareRepStatus.ok) ∧
      (dl = none → (prepareRep tree0 i st u rb dl).2 = PrepareRepStatus.ok) ∧
      (∀ eu rawLines, dl = some (eu, rawLines) →
        (tree0.periods.getD i {}).rep.isDownloaded = false →
        (((prepareRep tree0 i st u rb dl).2 = PrepareRepStatus.failure ↔
          (hasExtM3U (rawLines.filter (fun l => l ≠ [])) = false ∨
           unsupportedKeySeen rb false (rawLines.filter (fun l => l ≠ [])) = true ∨
           (∃ ls1, runChildLines u st rb (removeParameters eu)
               { tree := tree0, periodIdx := i } (rawLines.filter (fun l => l ≠ [])) =
               Except.ok ls1 ∧ ls1.newSegments = []))) ∧
         (∀ ls1, runChildLines u st rb (removeParameters eu)
             { tree := tree0, periodIdx := i } (rawLines.filter (fun l => l ≠ [])) =
             Except.ok ls1 →
           hasExtM3U (rawLines.filter (fun l => l ≠ [])) = true →
           ls1.newSegments ≠ [] →
           ((prepareRep tree0 i st u rb dl).2 = PrepareRepStatus.drmChanged ↔
             1 ∈ ls1.wvTrace) ∧
           ((prepareRep tree0 i st u rb dl).2 = PrepareRepStatus.drmUnchanged ↔
             (ls1.wvTrace ≠ [] ∧ 1 ∉ ls1.wvTrace)) ∧
           ((prepareRep tree0 i st u rb dl).2 = PrepareRepStatus.ok ↔
             ls1.wvTrace = []))))) := by
  refine ⟨?_, ?_⟩
  · intro hurl
    simp only [prepareRep, if_pos hurl]
  · intro hurl
    refine ⟨?_, ?_, ?_⟩
    · intro hdl
      simp only [prepareRep, if_neg hurl, if_pos hdl]
      rfl
    · rintro rfl
      simp only [prepareRep, if_neg hurl]
      by_cases hd : (tree0.periods.getD i {}).rep.isDownloaded = true
      · rw [if_pos hd]
        rfl
      · rw [if_neg hd]
        rfl
    · rintro eu rawLines rfl hnotdl
      have hd : ¬((tree0.periods.getD i {}).rep.isDownloaded = true) := by
        intro hcon
        rw [hnotdl] at hcon
        exact Bool.noConfusion hcon
      have hred : prepareRep tree0 i st u rb (some (eu, rawLines)) =
          prepareDl tree0 i st u rb eu rawLines := by
        simp only [prepareRep, if_neg hurl, if_neg hd]
      rw [hred]
      cases hrun : runChildLines u st rb (removeParameters eu)
          { tree := tree0, periodIdx := i } (rawLines.filter (fun l => l ≠ [])) with
      | error lsF =>
        rw [prepareDl_run_error tree0 i st u rb eu rawLines lsF hrun]
        refine ⟨?_, ?_⟩
        · refine iff_of_true rfl (Or.inr (Or.inl ?_))
          exact (runChildLines_error_iff u st rb (removeParameters eu) _ _).mp ⟨lsF, hrun⟩
        · intro ls3 hok
          exact Except.noConfusion hok
      | ok ls1 =>
        rw [prepareDl_run_ok tree0 i st u rb eu rawLines ls1 hrun]
        have hdrm : drmInv ls1 :=
          (runChildLines_ok u st rb (removeParameters eu) _ _ ls1 hrun).2 (drmInv_init tree0 i)
        have hext : ls1.isExtM3U = hasExtM3U (rawLines.filter (fun l => l ≠ [])) := by
          have h := (runChildLines_ok u st rb (removeParameters eu) _ _ ls1 hrun).1
          simpa using h
        cases hep : childEpilogue st ls1 with
        | error t =>
          rw [prepareEpi_error tree0 i st u ls1 t hep]
          refine ⟨?_, ?_⟩
          · refine iff_of_true rfl ?_
            rcases (childEpilogue_error_iff st ls1).mp ⟨t, hep⟩ with hfalse | hempty
            · exact Or.inl (hext.symm.trans hfalse)
            · exact Or.inr (Or.inr ⟨ls1, rfl, hempty⟩)
          · intro ls3 hok hhas hne
            injection hok with hok3
            subst hok3
            rcases (childEpilogue_error_iff st ls1).mp ⟨t, hep⟩ with hfalse | hempty
            · rw [hext, hhas] at hfalse
              exact absurd hfalse (by simp)
            · exact absurd hempty hne
        | ok ls2 =>
          rw [prepareEpi_ok tree0 i st u ls1 ls2 hep]
          have hnoerr : ¬(ls1.isExtM3U = false ∨ ls1.newSegments = []) := by
            intro hcon
            obtain ⟨t, ht⟩ := (childEpilogue_error_iff st ls1).mpr hcon
            exact absurd (hep.symm.trans ht) (by simp)
          have hst : (finishPrepare ls2.tree ls2.periodLost u
              ((tree0.periods.getD i {}).id) (getCurrentSegmentNumber
                (tree0.periods.getD i {}).rep) ls2.prepareStatus).2 = ls1.prepareStatus := by
            rw [finishPrepare_snd]
            exact childEpilogue_ok_status st ls1 ls2 hep
          refine ⟨?_, ?_⟩
          · refine iff_of_false ?_ ?_
            · rw [hst]
              exact drmInv_ne_failure ls1 hdrm
            · rintro (hfalse | hunsup | ⟨ls3, hok3, hempty3⟩)
              · exact hnoerr (Or.inl (hext.trans hfalse))
              · obtain ⟨e, he⟩ :=
                  (runChildLines_error_iff u st rb (removeParameters eu)
                    (rawLines.filter (fun l => l ≠ []))
                    { tree := tree0, periodIdx := i }).mpr hunsup
                exact absurd (hrun.symm.trans he) (by simp)
              · injection hok3 with hok5
                subst hok5
                exact hnoerr (Or.inr hempty3)
          · intro ls3 hok3 hhas hne
            injection hok3 with hok5
            subst hok5
            rw [hst]
            exact ⟨hdrm.1, hdrm.2.1, hdrm.2.2⟩

/-- Counterexample to C3's final sentence ("a Representation marked
downloaded may have an empty source URL without causing failure"): the
empty-URL check (HLSTree.cpp 185-190) runs BEFORE the isDownloaded check
(HLSTree.cpp 196-202), so a downloaded representation with an empty source
URL makes `prepareRepresentation` return FAILURE. -/
theorem C3_downloaded_empty_url_counterexample :
    downloadedNoUrlRep.isDownloaded = true ∧ downloadedNoUrlRep.sourceUrl = [] ∧
    (prepareRep downloadedNoUrlTree 0 StreamType.video false []
      (some ([], plainLines))).2 = PrepareRepStatus.failure :=
  ⟨rfl, rfl, rfl⟩

/-- Witness for C3: the empty-URL clause at a downloaded representation, and
the failed-download (OK) clause at a live representation. -/
theorem C3_prepare_status_semantics_witness :
    prepareRep downloadedNoUrlTree 0 StreamType.video false [] (some ([], plainLines)) =
      (downloadedNoUrlTree, PrepareRepStatus.failure) ∧
    (prepareRep demoTree 0 StreamType.video false [] none).2 = PrepareRepStatus.ok :=
  ⟨(C3_prepare_status_semantics downloadedNoUrlTree 0 StreamType.video false []
      (some ([], plainLines))).1 (by decide),
   ((C3_prepare_status_semantics demoTree 0 StreamType.video false [] none).2
      (by decide)).2.1 rfl⟩

end HLSTree
